import Mathlib

set_option maxRecDepth 100000

/-!
Shallow embedding of the pre-call request pipeline of
`src/litellm-proxy/complexity_router.py` (the complexity-aware LLM routing
proxy), together with theorems settling the frozen claims C1..C10.

Conventions of the embedding:

* Python strings are Lean `String`s; character-level scans work on `List Char`.
  Python `str.lower()` / `str.upper()` / `str.strip()` are modelled for the
  ASCII range (`pyLower`, `pyUpper`, `pyStrip`), which covers every pattern
  literal in the source.
* Machine integers are `Nat` / `Int`; token totals inside the trimming loop are
  `Int` because the Python loop subtracts freely.
* The SHA-256 fingerprint used for duplicate detection is modelled injectively
  by the fingerprinted text itself (the code only compares digests for
  equality); the 16-hex-character contract hash is an abstract function
  supplied by the environment record `Env`.
* External effects (disk reads, the upstream classifier call, the session
  store, uuid generation, wall-clock time) enter through `Env` as pure
  functions; Python module-level mutable stores (the override cache) are
  threaded explicitly.
* `re.search` of the two override regexes is modelled by hand-written
  backtracking matchers over the lowered character list, equivalent to the
  IGNORECASE regexes of the source for their ASCII pattern alphabet.
-/

/-- ASCII model of Python `str.lower` applied characterwise. -/
def pyLower (c : Char) : Char :=
  if 'A' ≤ c ∧ c ≤ 'Z' then Char.ofNat (c.toNat + 32) else c

/-- ASCII model of Python `str.upper` applied characterwise. -/
def pyUpper (c : Char) : Char :=
  if 'a' ≤ c ∧ c ≤ 'z' then Char.ofNat (c.toNat - 32) else c

/-- The whitespace class of Python `str.strip()` and of the regex `\s`,
restricted to ASCII. -/
def pySpace (c : Char) : Bool :=
  c = ' ' ∨ c = '\t' ∨ c = '\n' ∨ c = '\x0d' ∨ c = '\x0b' ∨ c = '\x0c'

/-- Python `\w` (word character) over ASCII, used for the regex `\b` boundary. -/
def pyWordChar (c : Char) : Bool :=
  ('a' ≤ c ∧ c ≤ 'z') ∨ ('A' ≤ c ∧ c ≤ 'Z') ∨ ('0' ≤ c ∧ c ≤ '9') ∨ c = '_'

/-- Python `str.isdigit` over ASCII. -/
def pyDigit (c : Char) : Bool := '0' ≤ c ∧ c ≤ '9'

/-- Lowercase a character list (model of `message.lower()`). -/
def lowerL (s : List Char) : List Char := s.map pyLower

/-- Python `str.strip()` on a character list: drop leading and trailing
whitespace only (interior whitespace is kept). -/
def pyStrip (s : List Char) : List Char :=
  ((s.dropWhile pySpace).reverse.dropWhile pySpace).reverse

/-- String-level Python `str.strip()`. -/
def pyStripS (s : String) : String := String.mk (pyStrip s.toList)

/-- String-level Python `str.lower()`. -/
def pyLowerS (s : String) : String := String.mk (lowerL s.toList)

/-- String-level Python `str.upper()`. -/
def pyUpperS (s : String) : String := String.mk (s.toList.map pyUpper)

/-- Whether `pat` is a leading piece of `s` (character lists). -/
def startsL : List Char → List Char → Bool
  | [], _ => true
  | _ :: _, [] => false
  | p :: ps, c :: cs => p = c ∧ startsL ps cs

/-- Model of the Python substring test `pat in s` on character lists. -/
def subL (pat : List Char) : List Char → Bool
  | [] => startsL pat []
  | c :: cs => startsL pat (c :: cs) || subL pat cs

/-- Model of the Python substring test `pat in s` on strings. -/
def subS (pat s : String) : Bool := subL pat.toList s.toList

/-- Python truthiness of a string (`if s:`). -/
def strTruthy (s : String) : Bool := s ≠ ""

/-- Python truthiness of an optional string: `None` and `""` are falsy. -/
def optTruthy : Option String → Bool
  | none => false
  | some s => strTruthy s

/-- Characters of `s` after the first occurrence of `pat`
(model of `s.split(pat, 1)[1]` when `pat in s`). -/
def afterFirstL (pat : List Char) : List Char → Option (List Char)
  | [] => if startsL pat [] then some [] else none
  | c :: cs =>
    if startsL pat (c :: cs) then some ((c :: cs).drop pat.length)
    else afterFirstL pat cs

/-- Characters of `s` before the first occurrence of `pat`, with the rest
after the pattern (model of `s.split(pat, 1)` when `pat in s`). -/
def splitOnceL (pat : List Char) : List Char → Option (List Char × List Char)
  | [] => if startsL pat [] then some ([], []) else none
  | c :: cs =>
    if startsL pat (c :: cs) then some ([], (c :: cs).drop pat.length)
    else
      match splitOnceL pat cs with
      | some (a, b) => some (c :: a, b)
      | none => none

/-- Worker of `removeAllL`, structurally recursive on a fuel bounded by the
input length (each step consumes at least one character). -/
def removeAllGo (pat : List Char) : Nat → List Char → List Char
  | _, [] => []
  | 0, s => s
  | fuel + 1, c :: cs =>
    if startsL pat (c :: cs) ∧ pat.length > 0 then
      removeAllGo pat fuel ((c :: cs).drop pat.length)
    else c :: removeAllGo pat fuel cs

/-- Python `s.replace(pat, "")` for a non-empty pattern: remove every
non-overlapping occurrence, scanning left to right. -/
def removeAllL (pat s : List Char) : List Char := removeAllGo pat s.length s

/-- Python `str.split()` with no argument: split on whitespace runs,
discarding empty pieces. -/
def splitWsL : List Char → List (List Char)
  | [] => []
  | c :: cs =>
    if pySpace c then splitWsL cs
    else
      match splitWsL cs with
      | [] => [[c]]
      | w :: ws =>
        match cs with
        | [] => [[c]]
        | d :: _ => if pySpace d then [c] :: w :: ws else (c :: w) :: ws

/-- Count of non-whitespace characters of a string (the reading of the
fast-path threshold that claim C8 uses). -/
def nonWsCount (s : String) : Nat := (s.toList.filter (fun c => ¬ pySpace c)).length

/-- Consume the literal `pat` from the front of `s`, returning the rest. -/
def matchLit : List Char → List Char → Option (List Char)
  | [], s => some s
  | _ :: _, [] => none
  | p :: ps, c :: cs => if p = c then matchLit ps cs else none

/-- Consume one or more whitespace characters (regex `\s+`); greedy, which is
faithful here because no continuation in either pattern starts with
whitespace. -/
def ws1 : List Char → Option (List Char)
  | [] => none
  | c :: cs => if pySpace c then some (cs.dropWhile pySpace) else none

/-- Verbs of `_CANCEL_OVERRIDE_PATTERN`. -/
def cancelVerbs : List (List Char) :=
  ["cancel".toList, "clear".toList, "stop".toList, "remove".toList,
   "disable".toList, "reset".toList]

/-- Nouns of `_CANCEL_OVERRIDE_PATTERN`. -/
def cancelNouns : List (List Char) :=
  ["override".toList, "routing".toList, "complexity".toList]

/-- Optional group `(?:lit\s+)?` followed by continuation `k`, with regex
backtracking (try with the group, fall back to without). -/
def optLitWs (lit : List Char) (k : List Char → Bool) (s : List Char) : Bool :=
  (match matchLit lit s with
   | some r =>
     match ws1 r with
     | some r2 => k r2
     | none => false
   | none => false) || k s

/-- Whether `_CANCEL_OVERRIDE_PATTERN` matches at the start of `s`
(s already lowered). -/
def cancelMatchAt (s : List Char) : Bool :=
  cancelVerbs.any (fun v =>
    match matchLit v s with
    | none => false
    | some r1 =>
      match ws1 r1 with
      | none => false
      | some r2 =>
        optLitWs "the".toList
          (optLitWs "model".toList
            (fun r3 => cancelNouns.any (fun n => (matchLit n r3).isSome))) r2)

/-- Model of `_CANCEL_OVERRIDE_PATTERN.search`: a match at some position. -/
def cancelSearch : List Char → Bool
  | [] => cancelMatchAt []
  | c :: cs => cancelMatchAt (c :: cs) || cancelSearch cs

/-- Consume the action verb of `_OVERRIDE_PATTERN`
(`use|switch\s+to|force|set`); the alternatives are prefix-disjoint, so
first-match is faithful. -/
def overrideVerb (s : List Char) : Option (List Char) :=
  match matchLit "use".toList s with
  | some r => some r
  | none =>
    match (matchLit "switch".toList s).bind ws1 with
    | some r =>
      match matchLit "to".toList r with
      | some r2 => some r2
      | none => none
    | none =>
      match matchLit "force".toList s with
      | some r => some r
      | none => matchLit "set".toList s

/-- Decimal value of a leading digit run, with the rest (regex `(\d+)`). -/
def digits1 (s : List Char) : Option (Nat × List Char) :=
  match s with
  | [] => none
  | c :: _ =>
    if pyDigit c then
      let ds := s.takeWhile pyDigit
      some (ds.foldl (fun a d => a * 10 + (d.toNat - 48)) 0, s.drop ds.length)
    else none

/-- Regex `\b` after a word character: the next character is not a word
character (or the input ends). -/
def wordBoundary : List Char → Bool
  | [] => true
  | c :: _ => ¬ pyWordChar c

/-- The duration unit `(?:min(?:ute)?s?|m)\b`, trying the greedy
alternatives in regex order. -/
def unitMatch (s : List Char) : Bool :=
  ["minutes".toList, "minute".toList, "mins".toList, "min".toList,
   "m".toList].any (fun u =>
    match matchLit u s with
    | some r => wordBoundary r
    | none => false)

/-- The tail `(\d+)\s*(?:min(?:ute)?s?|m)\b` of the duration clause. -/
def durNum (s : List Char) : Option Nat :=
  match digits1 s with
  | none => none
  | some (n, r) => if unitMatch (r.dropWhile pySpace) then some n else none

/-- The optional duration clause
`(?:\s+(?:for|during)\s+(?:the\s+next\s+)?(\d+)\s*(?:min(?:ute)?s?|m)\b)?`,
returning the captured number when the whole clause matches. -/
def durTail (s : List Char) : Option Nat :=
  match ws1 s with
  | none => none
  | some r1 =>
    match
      (match matchLit "for".toList r1 with
       | some r => some r
       | none => matchLit "during".toList r1) with
    | none => none
    | some r2 =>
      match ws1 r2 with
      | none => none
      | some r3 =>
        match
          (match ((matchLit "the".toList r3).bind ws1) with
           | some r4 =>
             match ((matchLit "next".toList r4).bind ws1) with
             | some r5 => durNum r5
             | none => none
           | none => none) with
        | some n => some n
        | none => durNum r3

/-- Whether `_OVERRIDE_PATTERN` matches at the start of `s` (s already
lowered), with group 1 (model name) and group 2 (duration). -/
def overrideMatchAt (s : List Char) : Option (String × Option Nat) :=
  match overrideVerb s with
  | none => none
  | some r1 =>
    match ws1 r1 with
    | none => none
    | some r2 =>
      match
        (["opus", "sonnet", "haiku"].filterMap (fun n =>
          match matchLit n.toList r2 with
          | some r3 => some (n, r3)
          | none => none)).head? with
      | none => none
      | some (n, r3) => some (n, durTail r3)

/-- Model of `_OVERRIDE_PATTERN.search`: the leftmost match. -/
def overrideSearch : List Char → Option (String × Option Nat)
  | [] => overrideMatchAt []
  | c :: cs =>
    match overrideMatchAt (c :: cs) with
    | some x => some x
    | none => overrideSearch cs

/-- Result of `_parse_override_command`. -/
inductive OverrideCmd where
  | cancel : OverrideCmd
  | setCmd (model : String) (complexity : String) (ttlMinutes : Nat) : OverrideCmd
deriving DecidableEq

/-- The `_MODEL_NAME_TO_COMPLEXITY` map. -/
def modelNameToComplexity (n : String) : Option String :=
  if n = "opus" then some "COMPLEX"
  else if n = "sonnet" then some "MODERATE"
  else if n = "haiku" then some "SIMPLE"
  else none

/-- Model of `_parse_override_command`: cancel pattern first, then the set
pattern; the duration is capped at `maxTtl`
(`COMPLEXITY_OVERRIDE_MAX_TTL_MINUTES`) and defaults to `defaultTtl`. -/
def parse_override_command (maxTtl defaultTtl : Nat) (message : String) :
    Option OverrideCmd :=
  if message = "" then none
  else
    let ml := lowerL message.toList
    if cancelSearch ml then some .cancel
    else
      match overrideSearch ml with
      | none => none
      | some (name, dur) =>
        match modelNameToComplexity name with
        | none => none
        | some comp =>
          let ttl :=
            match dur with
            | some n => min n maxTtl
            | none => defaultTtl
          some (.setCmd name comp ttl)

/-- Override-store entry (`_complexity_override_cache` values). -/
structure OverrideEntry where
  complexity : String
  expires : Nat
  created : Nat
  ttlMinutes : Nat
deriving DecidableEq

/-- The module-level `_complexity_override_cache`, threaded explicitly:
session-id to entry, first binding wins on lookup. -/
abbrev OverrideStore := List (String × OverrideEntry)

/-- Dictionary lookup in the override store. -/
def storeLookup (store : OverrideStore) (sid : String) : Option OverrideEntry :=
  match store.find? (fun p => p.1 = sid) with
  | some p => some p.2
  | none => none

/-- Model of `_cleanup_expired_overrides`: drop entries with
`expires < now`. -/
def cleanup_expired_overrides (store : OverrideStore) (now : Nat) : OverrideStore :=
  store.filter (fun p => ¬ (p.2.expires < now))

/-- Model of `_set_complexity_override`: no-op without a truthy session id;
otherwise write the entry (`expires = now + ttl minutes`) and run the
opportunistic cleanup. -/
def set_complexity_override (store : OverrideStore) (sid : Option String)
    (complexity : String) (ttl : Nat) (now : Nat) : OverrideStore :=
  match sid with
  | none => store
  | some s =>
    if s = "" then store
    else
      cleanup_expired_overrides
        ((s, ⟨complexity, now + ttl * 60, now, ttl⟩) ::
          store.filter (fun p => p.1 ≠ s)) now

/-- Model of `_get_complexity_override`: the stored complexity when the entry
exists and has not expired (`expires < now` is expiry; the lazy pop of an
expired entry is observationally the same as returning `none`). -/
def get_complexity_override (store : OverrideStore) (sid : Option String)
    (now : Nat) : Option String :=
  match sid with
  | none => none
  | some s =>
    if s = "" then none
    else
      match storeLookup store s with
      | none => none
      | some e => if e.expires < now then none else some e.complexity

/-- Model of `_cancel_complexity_override`: remove the session's entry. -/
def cancel_complexity_override (store : OverrideStore) (sid : Option String) :
    OverrideStore :=
  match sid with
  | none => store
  | some s => if s = "" then store else store.filter (fun p => p.1 ≠ s)

/-- Model of `_get_override_remaining_seconds`. -/
def get_override_remaining_seconds (store : OverrideStore) (sid : Option String)
    (now : Nat) : Option Nat :=
  match sid with
  | none => none
  | some s =>
    if s = "" then none
    else
      match storeLookup store s with
      | none => none
      | some e => if now < e.expires then some (e.expires - now) else none

/-- The override-command dispatch of `async_pre_call_hook` (the body of
`if user_message: ... _parse_override_command ...`): a cancel command clears
the session's override, a set command writes one. -/
def processOverrideCommand (maxTtl defaultTtl : Nat) (store : OverrideStore)
    (sid : Option String) (message : String) (now : Nat) : OverrideStore :=
  match parse_override_command maxTtl defaultTtl message with
  | none => store
  | some .cancel => cancel_complexity_override store sid
  | some (.setCmd _ comp ttl) => set_complexity_override store sid comp ttl now

/-- A chat message after `_normalize_message_text` flattening: the guard only
ever inspects the normalized text of a block (string contents pass through
verbatim, list-of-block contents are flattened to text before any decision),
and the stubs it writes back are plain strings, so `content` is the text. -/
structure Msg where
  role : String
  content : String
deriving DecidableEq

/-- Request metadata dictionary, restricted to the keys the pipeline reads or
writes; an absent key is `none`. -/
structure Meta where
  requestId : Option String := none
  routerBuildId : Option String := none
  repo : Option String := none
  repoRoot : Option String := none
  userId : Option String := none
  requestType : Option String := none
  policyViolation : Option String := none
  contractHash : Option String := none
  violationReason : Option String := none
  contextTokensEstimated : Option Int := none
  contextTrimmed : Option Bool := none
  contextTrimmedCount : Option Nat := none
  duplicateBlocksDetected : Option Nat := none
  largeBlocksSuppressed : Option Nat := none
  exhaustionRisk : Option String := none
  ledgerAlert : Option String := none
deriving DecidableEq

/-- The empty metadata dictionary. -/
def emptyMeta : Meta := {}

/-- Request headers the pipeline recognizes. -/
structure Headers where
  xRepo : Option String := none
  xRepoRoot : Option String := none
  authorization : Option String := none
deriving DecidableEq

/-- One choice of a synthetic chat-completion response. -/
structure SynthChoice where
  index : Nat
  role : String
  content : String
  finishReason : String
deriving DecidableEq

/-- Synthetic chat-completion response attached on short-circuit. -/
structure SynthResponse where
  id : String
  object : String
  choices : List SynthChoice
deriving DecidableEq

/-- Build the single-choice synthetic response shape used by the source. -/
def mkSynthResponse (id content finishReason : String) : SynthResponse :=
  ⟨id, "chat.completion", [⟨0, "assistant", content, finishReason⟩]⟩

/-- The in-flight request (`data` dict of the hook): the fields the pipeline
reads or mutates, plus the short-circuit channel (`response`,
`skip_llm_call`, `do_not_route`). -/
structure Request where
  model : String
  messages : List Msg
  system : Option String := none
  metadata : Meta := {}
  litellmMetadata : Meta := {}
  headers : Headers := {}
  callType : String
  response : Option SynthResponse := none
  skipLlmCall : Bool := false
  doNotRoute : Bool := false
deriving DecidableEq

/-- Environment-derived configuration constants of the router
(`LITELLM_CONTEXT_*`, `LITELLM_OVERRIDE_*`, `LITELLM_LEDGER_REPOS`), with the
source defaults. -/
structure RouterCfg where
  soft : Nat := 180000
  hard : Nat := 200000
  blockLimit : Nat := 12000
  dupMin : Nat := 800
  overhead : Nat := 400
  overrideDefaultTtl : Nat := 5
  overrideMaxTtl : Nat := 60
  ledgerApplyAll : Bool := true
  ledgerRepos : List String := []
deriving DecidableEq

/-- Model of `_estimate_tokens_from_text`: 0 for falsy text, else
`max(1, ceil(len/4))`. -/
def estimate_tokens_from_text (s : String) : Nat :=
  if s = "" then 0 else (s.length + 3) / 4

/-- Model of `_normalize_message_text` on the canonical message shape
(string contents pass through unchanged). -/
def normalize_message_text (m : Msg) : String := m.content

/-- Stub written over a duplicate block. -/
def dupStubText : String :=
  "[[Duplicate context removed at proxy; reference earlier block]]"

/-- Stub written over an oversized block, reporting the original size. -/
def largeStubText (blockTokens limit : Nat) : String :=
  "[[Block suppressed: " ++ toString blockTokens ++ " tokens exceeded " ++
    toString limit ++ ". Please summarize upstream.]]"

/-- Result of the first pass of the guard. -/
structure Pass1Out where
  msgs : List Msg
  tokens : Nat
  dups : Nat
  larges : Nat
deriving DecidableEq

/-- Pass 1 of `_apply_context_exhaustion_protection`: per block, replace a
repeated fingerprint (`seen` holds the texts already fingerprinted this
request) with the duplicate stub, then replace a block whose estimate exceeds
the block limit with the size-reporting stub, summing the resulting
estimates. -/
def guardPass1 (cfg : RouterCfg) : List Msg → List String → Pass1Out
  | [], _ => ⟨[], 0, 0, 0⟩
  | m :: rest, seen =>
    let t0 := normalize_message_text m
    let b0 := estimate_tokens_from_text t0
    match
      (if strTruthy t0 && decide (cfg.dupMin ≤ b0) then
        if seen.contains t0 then
          ((⟨m.role, dupStubText⟩ : Msg), dupStubText,
            estimate_tokens_from_text dupStubText, seen, 1)
        else (m, t0, b0, t0 :: seen, 0)
      else (m, t0, b0, seen, 0) :
        Msg × String × Nat × List String × Nat) with
    | (m1, t1, b1, seen1, dupInc) =>
      match
        (if strTruthy t1 && decide (cfg.blockLimit < b1) then
          ((⟨m1.role, largeStubText b1 cfg.blockLimit⟩ : Msg),
            estimate_tokens_from_text (largeStubText b1 cfg.blockLimit), 1)
        else (m1, b1, 0) : Msg × Nat × Nat) with
      | (m2, b2, largeInc) =>
        let r := guardPass1 cfg rest seen1
        ⟨m2 :: r.msgs, b2 + r.tokens, dupInc + r.dups, largeInc + r.larges⟩

/-- Index of the last `role == "user"` message (the loop over `enumerate`). -/
def lastUserIdxAux : Nat → List Msg → Option Nat → Option Nat
  | _, [], acc => acc
  | i, m :: rest, acc =>
    lastUserIdxAux (i + 1) rest (if m.role = "user" then some i else acc)

/-- Index of the last user message of the list. -/
def lastUserIdx (msgs : List Msg) : Option Nat := lastUserIdxAux 0 msgs none

/-- Trimming candidates: every `(index, token estimate)` except `role=system`
messages and the last user message, in encounter order. -/
def buildCandidatesAux (lastUser : Option Nat) : Nat → List Msg → List (Nat × Nat)
  | _, [] => []
  | i, m :: rest =>
    if m.role = "system" then buildCandidatesAux lastUser (i + 1) rest
    else if lastUser = some i then buildCandidatesAux lastUser (i + 1) rest
    else
      (i, estimate_tokens_from_text (normalize_message_text m)) ::
        buildCandidatesAux lastUser (i + 1) rest

/-- The candidate list of the trimming pass. -/
def buildCandidates (msgs : List Msg) : List (Nat × Nat) :=
  buildCandidatesAux (lastUserIdx msgs) 0 msgs

/-- The removal loop of the trimming pass: while the running total exceeds the
soft limit, mark the next candidate for removal and subtract its cost;
returns the removed indices and the final total. -/
def selectRemovals (soft : Int) : Int → List (Nat × Nat) → List Nat × Int
  | total, [] => ([], total)
  | total, (i, c) :: rest =>
    if total ≤ soft then ([], total)
    else
      let r := selectRemovals soft (total - (c : Int)) rest
      (i :: r.1, r.2)

/-- Drop the elements whose (0-based, from `start`) index is in `rem`
(the rebuild `[m for i, m in enumerate(messages) if i not in removal_set]`). -/
def removeIdx (rem : List Nat) : Nat → List Msg → List Msg
  | _, [] => []
  | i, x :: xs =>
    if rem.contains i then removeIdx rem (i + 1) xs
    else x :: removeIdx rem (i + 1) xs

/-- Result of the trimming pass. -/
structure TrimOut where
  msgs : List Msg
  total : Int
  count : Nat
  trimmed : Bool
deriving DecidableEq

/-- Pass 2 of `_apply_context_exhaustion_protection`: trim when the total
exceeds the soft limit. -/
def guardTrim (cfg : RouterCfg) (msgs : List Msg) (total : Nat) : TrimOut :=
  if cfg.soft < total then
    let sel := selectRemovals (cfg.soft : Int) (total : Int) (buildCandidates msgs)
    if sel.1 = [] then ⟨msgs, sel.2, 0, false⟩
    else ⟨removeIdx sel.1 0 msgs, sel.2, sel.1.length, true⟩
  else ⟨msgs, (total : Int), 0, false⟩

/-- The synthetic refusal text of the hard-limit branch. -/
def contextExhaustionRefusalText : String :=
  "This request exceeds the proxy's context capacity even after automatic trimming. Please summarize earlier files or send smaller chunks before retrying."

/-- Model of `_apply_context_exhaustion_protection`: both passes, then either
the hard-limit refusal (which stamps `exhaustion_risk=fatal` and the
skip-upstream flags but, as in the source, no `large_blocks_suppressed` key)
or the risk-level metadata stamps. The float ratio thresholds `>= 1` and
`>= 0.8` are exact at these integer operands and are modelled by the integer
comparisons `total >= soft` and `5*total >= 4*soft`. Returns the mutated
request and the `refused` flag. -/
def apply_context_exhaustion_protection (cfg : RouterCfg) (d : Request) :
    Request × Bool :=
  let p1 := guardPass1 cfg d.messages []
  let t := guardTrim cfg p1.msgs (cfg.overhead + p1.tokens)
  if t.total > (cfg.hard : Int) then
    ({d with
        messages := t.msgs,
        response := some (mkSynthResponse "context_exhaustion"
          contextExhaustionRefusalText "context_exhaustion"),
        skipLlmCall := true,
        doNotRoute := true,
        metadata := {d.metadata with
          contextTokensEstimated := some t.total,
          contextTrimmed := some t.trimmed,
          contextTrimmedCount := some t.count,
          duplicateBlocksDetected := some p1.dups,
          exhaustionRisk := some "fatal"}}, true)
  else
    let risk :=
      if cfg.soft = 0 then "low"
      else if t.total ≥ (cfg.soft : Int) then "high"
      else if 5 * t.total ≥ 4 * (cfg.soft : Int) then "medium"
      else "low"
    ({d with
        messages := t.msgs,
        metadata := {d.metadata with
          contextTokensEstimated := some t.total,
          contextTrimmed := some t.trimmed,
          contextTrimmedCount := some t.count,
          duplicateBlocksDetected := some p1.dups,
          largeBlocksSuppressed := some p1.larges,
          exhaustionRisk := some risk}}, false)

/-- Join a list of strings with a separator. -/
def joinSep (sep : String) : List String → String
  | [] => ""
  | [x] => x
  | x :: y :: xs => x ++ sep ++ joinSep sep (y :: xs)

/-- The guard-intervention test of `_build_ledger_reminder`: the truthiness
chain `trimmed_flag or trimmed_count or duplicates or large_blocks or risk in
("medium", "high")` over the metadata the guard stamped. -/
def ledgerGuardIntervened (md : Meta) : Bool :=
  md.contextTrimmed.getD false || decide (md.contextTrimmedCount.getD 0 ≠ 0) ||
    decide (md.duplicateBlocksDetected.getD 0 ≠ 0) ||
    decide (md.largeBlocksSuppressed.getD 0 ≠ 0) ||
    decide (md.exhaustionRisk.getD "low" = "medium") ||
    decide (md.exhaustionRisk.getD "low" = "high")

/-- Model of `_build_ledger_reminder`: `(reminder, alert_reason)`. The
reminder is built whenever the repo is truthy and inside the enforcement set
(or the set is `*`, `ledgerApplyAll`); the extra intervention line and the
`context_guard` alert are added exactly when the guard intervened. -/
def build_ledger_reminder (cfg : RouterCfg) (repo : Option String) (md : Meta) :
    Option String × Option String :=
  match repo with
  | none => (none, none)
  | some r =>
    if r = "" then (none, none)
    else if ¬ cfg.ledgerApplyAll ∧ ¬ cfg.ledgerRepos.contains (pyLowerS r) then
      (none, none)
    else
      let intervened := ledgerGuardIntervened md
      let lines :=
        ["Before working, rehydrate from README.md → Session Recovery Ledger.",
         "After any plan change / major decision / checkpoint, update README and AGENTS immediately."] ++
        (if intervened then
          ["Context guard intervened on this request. Summarize current progress in README before continuing."]
        else [])
      (some ("LEDGER REMINDER (" ++ r ++ "):\n- " ++ joinSep "\n- " lines),
        if intervened then some "context_guard" else none)

/-- Policy contract object (`load_policy_contract` result). -/
structure Contract where
  readme : String
  agents : String
  contractText : String
  hash : String
deriving DecidableEq

/-- External world of the pipeline: disk, clock, upstream classifier, session
stores, uuid and build id, all as pure functions. `sha256hex16` abstracts
`sha256(...).hexdigest()[:16]`; `classifierResult` is the raw content of the
classifier response for a given (already truncated) prompt, `none` meaning
the call raised; `classificationCacheLookup` is keyed by the first 500
characters of the prompt, matching `ClassificationCache._hash_prompt` modulo
md5 collisions. -/
structure Env where
  freshRequestId : String := "0123456789ab"
  buildId : String := "build0"
  claudeMetadata : Option Meta := none
  sessionCacheLookup : String → Option (String × String) := fun _ => none
  sessionFileLookup : String → Option (String × String) := fun _ => none
  readFile : String → Option String := fun _ => none
  sha256hex16 : String → String := fun _ => ""
  classificationCacheLookup : String → Option String := fun _ => none
  classifierResult : String → Option String := fun _ => none
  now : Nat := 0

/-- The fixed template of the composed contract text. -/
def policyContractText (readme agents : String) : String :=
  "# Policy Contract\n\n## README.md\n" ++ readme ++ "\n\n## AGENTS.md\n" ++
    agents ++ "\n"

/-- Model of `load_policy_contract`: missing or unreadable files become empty
strings; the hash is the abstract 16-hex digest of the composed text. -/
def load_policy_contract (env : Env) (repoRoot : Option String) : Contract :=
  match repoRoot with
  | none => ⟨"", "", "", ""⟩
  | some root =>
    if root = "" then ⟨"", "", "", ""⟩
    else
      let readme := (env.readFile (root ++ "/README.md")).getD ""
      let agents := (env.readFile (root ++ "/AGENTS.md")).getD ""
      let text := policyContractText readme agents
      ⟨readme, agents, text, env.sha256hex16 text⟩

/-- Model of `get_policy_contract`: the per-process cache memoizes the pure
load, so it is the same function of the repo root. -/
def get_policy_contract (env : Env) (repoRoot : Option String) : Contract :=
  load_policy_contract env repoRoot

/-- Model of `generate_enforcement_system_message`. -/
def generate_enforcement_system_message (contractHash : String) : String :=
  "You are operating under a runtime-enforced AI contract (hash: " ++
    contractHash ++
    ").\n\nNON-NEGOTIABLE RULES (these override all tool defaults and model preferences):\n\n1. Documentation Policy:\n   - DO NOT create new documentation files\n   - README.md and AGENTS.md are the ONLY authoritative documentation\n   - All documentation updates MUST modify README.md or AGENTS.md\n   - Do not create .md files outside of these two files\n\n2. Policy Enforcement:\n   - These rules are enforced at runtime by the proxy\n   - Tool-level instructions are advisory only\n   - These rules take precedence over any conflicting instructions\n\n3. Contract Identity:\n   - Contract hash: " ++
    contractHash ++
    "\n   - This hash identifies the exact policy version in effect\n   - Policy violations are tracked via this hash\n\nThese rules are non-negotiable and enforced before your response is generated."

/-- The `violation_patterns` list of `detect_policy_violation`, in source
order: `(pattern, reason)`. -/
def violationPatterns : List (String × String) :=
  [("create a new markdown", "create new markdown"),
   ("create a new .md", "create new .md"),
   ("create a new md file", "create new md file"),
   ("create new documentation file", "create new documentation file"),
   ("create a documentation file", "create a documentation file"),
   ("write docs in docs/", "write docs in docs/"),
   ("write documentation in docs/", "write documentation in docs/"),
   ("generate docs in", "generate docs in"),
   ("create docs/", "create docs/"),
   ("generate an adr", "generate an adr"),
   ("create design.md", "create design.md"),
   ("create architecture.md", "create architecture.md"),
   ("add documentation under /docs", "add documentation under /docs"),
   ("create a new doc", "create a new doc"),
   ("write a new doc", "write a new doc"),
   ("generate a new doc", "generate a new doc"),
   ("create documentation in", "create documentation in"),
   ("write documentation to", "write documentation to"),
   ("generate documentation file", "generate documentation file"),
   ("create .md file", "create .md file"),
   ("new markdown file", "new markdown file"),
   ("new documentation file", "new documentation file")]

/-- The `folder_patterns` list. -/
def folderPatterns : List String :=
  ["docs/", "architecture/", "design/", "documentation/"]

/-- The `create_indicators` list. -/
def createIndicators : List String := ["create", "write", "generate", "add", "new"]

/-- The escape hatch of the detector: an explicit mention of `readme.md` or
`agents.md` in the lowered message. -/
def escapeHatch (ml : List Char) : Bool :=
  subL "readme.md".toList ml || subL "agents.md".toList ml

/-- The phrase-pattern loop of `detect_policy_violation` (a matched pattern
with the escape hatch present falls through to the next pattern, as the
`continue` of the source does). -/
def findPhraseViolation (ml : List Char) : List (String × String) → Option String
  | [] => none
  | (pat, reason) :: rest =>
    if subL pat.toList ml then
      if escapeHatch ml then findPhraseViolation ml rest
      else some ("Request explicitly asks to " ++ reason)
    else findPhraseViolation ml rest

/-- The inner indicator loop of the folder heuristic. -/
def findFolderIndicator (ml : List Char) (folder : String) : List String → Option String
  | [] => none
  | ind :: rest =>
    if subL ind.toList ml ∧ subL folder.toList ml then
      if escapeHatch ml then findFolderIndicator ml folder rest
      else some ("Request asks to create documentation in " ++ folder)
    else findFolderIndicator ml folder rest

/-- The outer folder loop of the folder heuristic. -/
def findFolderViolation (ml : List Char) : List String → Option String
  | [] => none
  | folder :: rest =>
    if subL folder.toList ml then
      match findFolderIndicator ml folder createIndicators with
      | some r => some r
      | none => findFolderViolation ml rest
    else findFolderViolation ml rest

/-- Model of `detect_policy_violation`: purely lexical detection on the
lowered last user message; `none` means no violation. -/
def detect_policy_violation (userMessage : String) : Option String :=
  if userMessage = "" then none
  else
    let ml := lowerL userMessage.toList
    match findPhraseViolation ml violationPatterns with
    | some r => some r
    | none => findFolderViolation ml folderPatterns

/-- Which arm of the classification decision fired (for the trace of the
hook; `notRun` when the pipeline short-circuited before classification). -/
inductive ClassifyPath where
  | notRun
  | overridden
  | noMessage
  | fastPath
  | cacheHit
  | classifierCall
deriving DecidableEq

/-- The validation of the classifier response content (strip, upper, exact
token or contained token, else SIMPLE). -/
def parseClassifierResponse (raw : String) : String :=
  let result := pyUpperS (pyStripS raw)
  if result = "SIMPLE" ∨ result = "MODERATE" ∨ result = "COMPLEX" then result
  else if subS "SIMPLE" result then "SIMPLE"
  else if subS "MODERATE" result then "MODERATE"
  else if subS "COMPLEX" result then "COMPLEX"
  else "SIMPLE"

/-- Model of `classify_with_haiku`: cache first (keyed by the first 500
characters), then the upstream classifier on the first 2000 characters, with
SIMPLE as the error default; the second component records which path ran. -/
def classify_with_haiku (env : Env) (prompt : String) : String × ClassifyPath :=
  match env.classificationCacheLookup (prompt.take 500) with
  | some c => (c, .cacheHit)
  | none =>
    match env.classifierResult (prompt.take 2000) with
    | none => ("SIMPLE", .classifierCall)
    | some raw => (parseClassifierResponse raw, .classifierCall)

/-- The `MODEL_MAP` tier table with its `.get(classification,
"claude-haiku-4-5")` default. -/
def MODEL_MAP (classification : String) : String :=
  if classification = "SIMPLE" then "claude-haiku-4-5"
  else if classification = "MODERATE" then "claude-sonnet-4-5"
  else if classification = "COMPLEX" then "claude-opus-4-5"
  else "claude-haiku-4-5"

/-- Model of `_extract_session_id`: the suffix of `metadata.user_id` after
the literal `account__session_`. -/
def extract_session_id (md : Meta) : Option String :=
  match md.userId with
  | none => none
  | some uid =>
    if uid = "" then none
    else
      match afterFirstL "account__session_".toList uid.toList with
      | some suffix => some (String.mk suffix)
      | none => none

/-- Model of the `apply_repo_context` closure of the hook: set `repo` and
`repo_root` on the metadata when truthy, honouring the `override` flag;
returns the updated metadata and whether anything was applied. -/
def applyRepoContext (md : Meta) (repo repoRoot : Option String) (ov : Bool) :
    Meta × Bool :=
  if ¬ optTruthy repo ∧ ¬ optTruthy repoRoot then (md, false)
  else
    let st1 : Meta × Bool :=
      if optTruthy repo ∧ (ov ∨ ¬ optTruthy md.repo) then
        ({md with repo := repo}, true)
      else (md, false)
    let st2 : Meta × Bool :=
      if optTruthy repoRoot ∧ (ov ∨ ¬ optTruthy st1.1.repoRoot) then
        ({st1.1 with repoRoot := repoRoot}, true)
      else (st1.1, false)
    (st2.1, st1.2 || st2.2)

/-- Candidate texts scanned by `extract_repo_context_from_system`: the
top-level system field, then system- or user-role messages containing the
marker. -/
def markerCandidates (d : Request) : List String :=
  (match d.system with
   | some s => [s]
   | none => []) ++
  d.messages.filterMap (fun m =>
    if (m.role = "system" ∨ m.role = "user") ∧ subS "LITELLM_CONTEXT" m.content
    then some m.content else none)

/-- The part scan of the marker parser: the last `repo=` and `repo_root=`
parts win, as in the source loop. -/
def parseMarkerParts (parts : List (List Char)) : Option String × Option String :=
  parts.foldl
    (fun acc part =>
      if startsL "repo=".toList part then
        (some (String.mk (pyStrip (part.drop 5))), acc.2)
      else if startsL "repo_root=".toList part then
        (acc.1, some (String.mk (pyStrip (part.drop 10))))
      else acc)
    (none, none)

/-- The candidate loop of `extract_repo_context_from_system`. -/
def markerScan : List String → Option (String × String)
  | [] => none
  | text :: rest =>
    if ¬ subS "LITELLM_CONTEXT" text then markerScan rest
    else
      match
        parseMarkerParts
          (splitWsL (removeAllL "-->".toList (removeAllL "<!--".toList text.toList))) with
      | (some r, some rr) =>
        if r ≠ "" ∧ rr ≠ "" then some (r, rr) else markerScan rest
      | _ => markerScan rest

/-- Model of `extract_repo_context_from_system`. -/
def extract_repo_context_from_system (d : Request) : Option (String × String) :=
  markerScan (markerCandidates d)

/-- Whether the metadata dictionary is non-empty (Python dict truthiness). -/
def metaNonempty (m : Meta) : Bool := m ≠ emptyMeta

/-- Python `auth.split(" ", 1)` with the `.strip()` on the scheme; `none`
scheme when there is no space (the `ValueError` branch of the source). -/
def splitFirstSpace (a : String) : Option String × String :=
  match splitOnceL [' '] a.toList with
  | some (before, after) => (some (pyStripS (String.mk before)), String.mk after)
  | none => (none, a)

/-- The returned root of `get_repo_root_from_request`: the truthy
`repo_root` (the `repo and repo_root` branch and the `repo_root`-only branch
both return it; the registry branch of the source is dead code). -/
def resolverRootChoice (rn rootVal : Option String) : Option String :=
  if optTruthy rn ∧ optTruthy rootVal then rootVal
  else if optTruthy rootVal then rootVal
  else none

/-- Model of `get_repo_root_from_request`: explicit metadata (top-level if
non-empty, else `litellm_params.metadata`), the `repo::token` authorization
rewrite, then the root when truthy. `Path(...).expanduser().resolve()` is
modelled as the identity on the path string; the registry registration is an
external effect with no influence on the returned value (the registry-only
resolution branch of the source is unreachable, since its condition has
already returned). Returns the possibly mutated request and the root. -/
def get_repo_root_from_request (d : Request) : Request × Option String :=
  let chosen := if metaNonempty d.metadata then d.metadata else d.litellmMetadata
  let repoName0 := chosen.repo
  let rootVal := chosen.repoRoot
  let st : Request × Option String :=
    match d.headers.authorization with
    | none => (d, repoName0)
    | some a =>
      if a = "" then (d, repoName0)
      else
        let sp := splitFirstSpace a
        if strTruthy sp.2 && subS "::" sp.2 then
          match splitOnceL "::".toList sp.2.toList with
          | none => (d, repoName0)
          | some (p, r) =>
            let potential := String.mk p
            let real := String.mk r
            let st1 : Request × Option String :=
              if potential ≠ "" then
                let rn := if optTruthy repoName0 then repoName0 else some potential
                ({d with metadata := {d.metadata with repo := rn}}, rn)
              else (d, repoName0)
            if real ≠ "" then
              let newAuth :=
                match sp.1 with
                | some sc => if sc ≠ "" then sc ++ " " ++ real else real
                | none => real
              ({st1.1 with
                  headers := {st1.1.headers with authorization := some newAuth}},
                st1.2)
            else st1
        else (d, repoName0)
  (st.1, resolverRootChoice st.2 rootVal)

/-- Model of `extract_user_message`: content of the last user-role message
(already in flattened string form). -/
def extract_user_message (msgs : List Msg) : Option String :=
  match msgs.reverse.find? (fun m => m.role = "user") with
  | some m => some m.content
  | none => none

/-- Outcome of the pre-call hook: the returned request, the threaded override
store, and a trace of which arm decided the classification, whether the guard
refused, which contract was loaded, whether the enforcement system message
was injected, and whether the pipeline ran to its final (routing) stage. -/
structure HookResult where
  data : Request
  store : OverrideStore
  refusedByGuard : Bool
  classifyPath : ClassifyPath
  classification : Option String
  contractLoaded : Option Contract
  enforcementInjected : Bool
  completedPipeline : Bool

/-- The call types the hook processes
(`completion`, `acompletion`, `anthropic_messages`). -/
def allowedCallType (ct : String) : Bool :=
  ct = "completion" ∨ ct = "acompletion" ∨ ct = "anthropic_messages"

/-- An early return of the hook that leaves the request as it stands. -/
def passThrough (d : Request) (store : OverrideStore) : HookResult :=
  ⟨d, store, false, .notRun, none, none, false, false⟩

/-- The guard-then-ledger step of the hook: build the reminder from the
post-guard metadata and stamp `ledger_alert` when the alert is truthy;
returns the request and the reminder for the later enforcement stage. -/
def ledgerStage (cfg : RouterCfg) (d : Request) : Request × Option String :=
  let lr := build_ledger_reminder cfg d.metadata.repo d.metadata
  (if optTruthy lr.2 then
    {d with metadata := {d.metadata with ledgerAlert := lr.2}}
  else d, lr.1)

/-- Content of the bootstrap synthetic response. -/
def bootstrapResponseText : String := "Repository registered successfully."

/-- The `request_type == "repo_bootstrap"` fast path: resolve and stamp the
root, default the model when absent, attach the synthetic success response
and the skip-upstream flags (the session-store write is an external
effect). -/
def bootstrapStage (d : Request) (store : OverrideStore) : HookResult :=
  let rp := get_repo_root_from_request d
  let d1 := if rp.1.model = "" then {rp.1 with model := "claude-haiku-4-5"} else rp.1
  let d2 :=
    match rp.2 with
    | some r => {d1 with metadata := {d1.metadata with repoRoot := some r}}
    | none => d1
  ⟨{d2 with
      response := some (mkSynthResponse "repo_bootstrap" bootstrapResponseText "stop"),
      skipLlmCall := true,
      doNotRoute := true}, store, false, .notRun, none, none, false, false⟩

/-- Content of the policy-violation synthetic refusal, naming the contract
hash and the detected reason. -/
def policyRefusalText (hash reason : String) : String :=
  "This request violates the documentation policy enforced by the runtime AI contract (hash: " ++
    hash ++ ").\n\n" ++ reason ++
    "\n\nTo comply with the policy, please update README.md or AGENTS.md instead of creating new documentation files."

/-- The override store after the command-dispatch step of the hook: parse the
truthy user message and apply a cancel or set command. -/
def overrideStageStore (cfg : RouterCfg) (env : Env) (store : OverrideStore)
    (sid : Option String) (um : Option String) : OverrideStore :=
  match um with
  | some m =>
    if m ≠ "" then
      processOverrideCommand cfg.overrideMaxTtl cfg.overrideDefaultTtl store
        sid m env.now
    else store
  | none => store

/-- The override-and-classification tail of the hook (source lines 1925-1979):
parse and apply an override command from the user message, honour a live
override, else the no-message / fast-path / cache-or-classifier decision, and
rewrite the model to the tier of the classification. -/
def classifyFinish (cfg : RouterCfg) (env : Env) (store : OverrideStore)
    (d : Request) (um : Option String) (contractOpt : Option Contract)
    (enfInjected : Bool) : HookResult :=
  let sid := extract_session_id d.metadata
  let store1 := overrideStageStore cfg env store sid um
  let active := get_complexity_override store1 sid env.now
  let cp : String × ClassifyPath :=
    match active with
    | some c => (c, .overridden)
    | none =>
      match um with
      | none => ("SIMPLE", .noMessage)
      | some m =>
        if m = "" then ("SIMPLE", .noMessage)
        else if (pyStrip m.toList).length < 20 then ("SIMPLE", .fastPath)
        else classify_with_haiku env m
  ⟨{d with model := MODEL_MAP cp.1}, store1, false, cp.2, some cp.1, contractOpt,
    enfInjected, true⟩

/-- The scoped-enforcement stage of the hook (source lines 1813-1917): with no
resolved root the request is processed without contract, policy check or
system injection; with a root, load the contract, stamp `repo_root`, refuse
on a detected documentation-policy violation (preserving the entry model),
else remove in-array system messages and inject the enforcement system
message (with the ledger reminder prepended when present), then classify. -/
def mainStage (cfg : RouterCfg) (env : Env) (store : OverrideStore)
    (d : Request) (root : Option String) (requestedModel : String)
    (um : Option String) (reminder : Option String) : HookResult :=
  match root with
  | none => classifyFinish cfg env store d um none false
  | some rt =>
    let c := get_policy_contract env (some rt)
    let d5 := {d with metadata := {d.metadata with repoRoot := some rt}}
    let viol :=
      match um with
      | some m => if m ≠ "" then detect_policy_violation m else none
      | none => none
    match viol with
    | some reason =>
      ⟨{d5 with
          metadata := {d5.metadata with
            policyViolation := some "true",
            contractHash := some c.hash,
            violationReason := some (reason.take 200)},
          response := some (mkSynthResponse "policy_violation"
            (policyRefusalText c.hash reason) "policy_violation"),
          model := requestedModel,
          skipLlmCall := true,
          doNotRoute := true}, store, false, .notRun, none, some c, false, false⟩
    | none =>
      if c.hash ≠ "" then
        let filtered := d5.messages.filter (fun m => ¬ (m.role = "system"))
        let enforcement0 := generate_enforcement_system_message c.hash
        let enforcement :=
          match reminder with
          | some r => if r ≠ "" then r ++ "\n\n" ++ enforcement0 else enforcement0
          | none => enforcement0
        let existing := d5.system.getD ""
        let sys :=
          if existing ≠ "" then enforcement ++ "\n\n---\n\n" ++ existing
          else enforcement
        classifyFinish cfg env store
          {d5 with messages := filtered, system := some sys} um (some c) true
      else classifyFinish cfg env store d5 um (some c) false

/-- The post-resolution body of `async_pre_call_hook`, from the context guard
on: guard (with early fatal return), ledger stamp, bootstrap short-circuit,
root resolution, call-type filter, classifier-recursion short-circuit,
already-refused idempotency guard, then the scoped policy/enforcement and
classification stages. -/
def hookCore (cfg : RouterCfg) (env : Env) (store : OverrideStore)
    (S : Request) : HookResult :=
  let g := apply_context_exhaustion_protection cfg S
  if g.2 then ⟨g.1, store, true, .notRun, none, none, false, false⟩
  else
    let ls := ledgerStage cfg g.1
    let d2 := ls.1
    if d2.metadata.requestType = some "repo_bootstrap" then bootstrapStage d2 store
    else
      let rp := get_repo_root_from_request d2
      let d3 := rp.1
      if ¬ allowedCallType d3.callType then passThrough d3 store
      else
        let requestedModel := d3.model
        let um := extract_user_message d3.messages
        if d3.metadata.requestType = some "classification" ∨
            d3.litellmMetadata.requestType = some "classification" then
          passThrough d3 store
        else if d3.metadata.policyViolation = some "true" then passThrough d3 store
        else mainStage cfg env store d3 rp.2 requestedModel um ls.2

/-- Leftmost-defined of two optional values (`a if a is not None else b`). -/
def orO {α : Type} : Option α → Option α → Option α
  | some v, _ => some v
  | none, y => y

/-- The `setdefault` merge of one metadata dictionary into another (keys of
`a` win). -/
def mergeMeta (a b : Meta) : Meta :=
  { requestId := orO a.requestId b.requestId,
    routerBuildId := orO a.routerBuildId b.routerBuildId,
    repo := orO a.repo b.repo,
    repoRoot := orO a.repoRoot b.repoRoot,
    userId := orO a.userId b.userId,
    requestType := orO a.requestType b.requestType,
    policyViolation := orO a.policyViolation b.policyViolation,
    contractHash := orO a.contractHash b.contractHash,
    violationReason := orO a.violationReason b.violationReason,
    contextTokensEstimated := orO a.contextTokensEstimated b.contextTokensEstimated,
    contextTrimmed := orO a.contextTrimmed b.contextTrimmed,
    contextTrimmedCount := orO a.contextTrimmedCount b.contextTrimmedCount,
    duplicateBlocksDetected := orO a.duplicateBlocksDetected b.duplicateBlocksDetected,
    largeBlocksSuppressed := orO a.largeBlocksSuppressed b.largeBlocksSuppressed,
    exhaustionRisk := orO a.exhaustionRisk b.exhaustionRisk,
    ledgerAlert := orO a.ledgerAlert b.ledgerAlert }

/-- The request-id, build-id and repo-context resolution prefix of
`async_pre_call_hook` (source lines 1610-1700): request id, router build id,
`litellm_params.metadata` merge, then repo context from headers (overriding),
metadata, `CLAUDE_METADATA`, the appended system-prompt marker, and the
session stores, in that precedence order. -/
def preResolve (env : Env) (R : Request) : Request :=
  let rid :=
    match R.metadata.requestId with
    | some s => if s ≠ "" then s else env.freshRequestId
    | none => env.freshRequestId
  let m1 := {R.metadata with requestId := some rid}
  let m2 :=
    if m1.routerBuildId.isSome then m1
    else {m1 with routerBuildId := some env.buildId}
  let m3 := mergeMeta m2 R.litellmMetadata
  let m4 := (applyRepoContext m3 R.headers.xRepo R.headers.xRepoRoot true).1
  let m5 := (applyRepoContext m4 m4.repo m4.repoRoot false).1
  let m6 :=
    match env.claudeMetadata with
    | some cm => (applyRepoContext (mergeMeta m5 cm) cm.repo cm.repoRoot false).1
    | none => m5
  let m7 :=
    match extract_repo_context_from_system {R with metadata := m6} with
    | some (r, rr) => (applyRepoContext m6 (some r) (some rr) false).1
    | none => m6
  let m8 :=
    match extract_session_id m7 with
    | some sid =>
      if sid = "" then m7
      else
        match env.sessionCacheLookup sid with
        | some (r, rr) => (applyRepoContext m7 (some r) (some rr) false).1
        | none =>
          match env.sessionFileLookup sid with
          | some (r, rr) => (applyRepoContext m7 (some r) (some rr) false).1
          | none => m7
    | none => m7
  {R with metadata := m8}

/-- Model of `ComplexityRouter.async_pre_call_hook`: resolution prefix, then
the guarded pipeline body. -/
def async_pre_call_hook (cfg : RouterCfg) (env : Env) (store : OverrideStore)
    (R : Request) : HookResult :=
  hookCore cfg env store (preResolve env R)

theorem hook_example_unscoped_trivial :
    let r := async_pre_call_hook {} {} []
      {model := "X", callType := "completion",
       messages := [⟨"user", "Hello!"⟩]}
    r.data.model = "claude-haiku-4-5" ∧ r.classifyPath = .fastPath ∧
      r.data.system = none ∧ r.contractLoaded = none := by decide

/-- Concrete configuration for the trimming-pass witness. -/
def c4cfg : RouterCfg :=
  {soft := 5, hard := 100, blockLimit := 100, dupMin := 100, overhead := 0}

/-- Concrete message list for the trimming-pass witness. -/
def c4msgs : List Msg :=
  [⟨"system", "aaaaaaaa"⟩, ⟨"assistant", "bbbbbbbbbbbb"⟩, ⟨"user", "cccc"⟩,
   ⟨"assistant", "dddd"⟩, ⟨"user", "eeee"⟩]

/-- Concrete classification-tagged request for the claim C1 witness and
counterexample. -/
def c1req : Request :=
  {model := "claude-haiku-4-5", callType := "acompletion",
   messages := [⟨"user", "Classify: hello"⟩],
   metadata := {requestType := some "classification"}}

/-- Concrete scoped request with a violating last user message for the claim
C2 witness. -/
def c2req : Request :=
  {model := "claude-sonnet-4-5", callType := "completion",
   messages := [⟨"user", "please create a new markdown file under docs/design/"⟩],
   metadata := {repo := some "acme", repoRoot := some "/tmp/acme"}}

/-- Concrete environment with a fixed contract digest for the scoped
witnesses. -/
def c2env : Env := {sha256hex16 := fun _ => "abcdef0123456789"}

/-- Concrete request carrying only `repo_root` (no `repo` from any source):
unscoped by the specification's definition, yet enforced by the code. -/
def c5req : Request :=
  {model := "m1", callType := "completion",
   messages := [⟨"user", "hello there"⟩],
   metadata := {repoRoot := some "/tmp/acme"}}

/-- Concrete request carrying a session id for the override witness. -/
def c6req : Request :=
  {model := "claude-haiku-4-5", callType := "completion",
   messages := [⟨"user", "Tell me about dragons"⟩],
   metadata := {userId := some "litellm-account__session_sess42"}}

/-- Concrete override store with a live COMPLEX override for that session. -/
def c6store : OverrideStore := [("sess42", ⟨"COMPLEX", 1000, 0, 5⟩)]

/-- Concrete request whose last user message has 2 non-whitespace characters
but 20 characters after stripping (one letter, 18 interior spaces, one
letter). -/
def c8req : Request :=
  {model := "claude-haiku-4-5", callType := "completion",
   messages := [⟨"user", "a                  a"⟩]}

/-- Environment whose classifier answers COMPLEX (no cache hit). -/
def c8env : Env := {classifierResult := fun _ => some "COMPLEX"}

/-- Concrete request with a short (8-character) last user message. -/
def c8short : Request :=
  {model := "claude-haiku-4-5", callType := "completion",
   messages := [⟨"user", "hi there"⟩]}

/-- Concrete scoped request (repo `acme`) with no guard intervention, for the
ledger-reminder counterexample. -/
def c9req : Request :=
  {model := "claude-haiku-4-5", callType := "completion",
   messages := [⟨"user", "hello there"⟩],
   metadata := {repo := some "acme", repoRoot := some "/tmp/acme"}}

/-! Sanity examples of the embedding on concrete inputs. -/

theorem splitWsL_example :
    splitWsL "ab  cd e".toList = [['a','b'], ['c','d'], ['e']] := by decide

theorem parse_override_example1 :
    parse_override_command 60 5 "Please use Opus for the next 10 minutes" =
      some (.setCmd "opus" "COMPLEX" 10) := by decide

theorem parse_override_example2 :
    parse_override_command 60 5 "switch to haiku" =
      some (.setCmd "haiku" "SIMPLE" 5) := by decide

theorem parse_override_example3 :
    parse_override_command 60 5 "cancel the model override" = some .cancel := by
  decide

theorem parse_override_example4 :
    parse_override_command 60 5 "use opus for 90 min" =
      some (.setCmd "opus" "COMPLEX" 60) := by decide

theorem detect_example_violation :
    detect_policy_violation "please create a new markdown file under docs/design/" =
      some "Request explicitly asks to create new markdown" := by decide

theorem detect_example_clean : detect_policy_violation "Hello!" = none := by decide

theorem marker_example :
    extract_repo_context_from_system
      {model := "m", callType := "completion",
       system := some "prefix <!-- LITELLM_CONTEXT repo=acme repo_root=/tmp/acme --> suffix",
       messages := []} = some ("acme", "/tmp/acme") := by decide

/-! Helper lemmas about the violation detector. -/

theorem findPhraseViolation_escape (ml : List Char) (h : escapeHatch ml = true) :
    ∀ l, findPhraseViolation ml l = none := by
  intro l
  induction l with
  | nil => rfl
  | cons p rest ih =>
    obtain ⟨pat, reason⟩ := p
    simp only [findPhraseViolation, h, if_true]
    split <;> simp [ih]

theorem findFolderIndicator_escape (ml : List Char) (folder : String)
    (h : escapeHatch ml = true) : ∀ l, findFolderIndicator ml folder l = none := by
  intro l
  induction l with
  | nil => rfl
  | cons ind rest ih =>
    simp only [findFolderIndicator, h, if_true]
    split <;> simp [ih]

theorem findFolderViolation_escape (ml : List Char) (h : escapeHatch ml = true) :
    ∀ l, findFolderViolation ml l = none := by
  intro l
  induction l with
  | nil => rfl
  | cons folder rest ih =>
    simp only [findFolderViolation, findFolderIndicator_escape ml folder h]
    split <;> simp [ih]

/-- C7: For every user message that mentions `readme.md` or `agents.md`
(case-insensitively), `detect_policy_violation` returns no violation, even
when the message also contains a listed violation phrase or a
documentation-folder name together with a creation verb. -/
theorem claim7_escape_hatch_no_violation (msg : String)
    (h : escapeHatch (lowerL msg.toList) = true) :
    detect_policy_violation msg = none := by
  by_cases he : msg = ""
  · simp [detect_policy_violation, he]
  · simp only [detect_policy_violation]
    rw [if_neg he, findPhraseViolation_escape _ h]
    exact findFolderViolation_escape _ h _

theorem claim7_witness :
    escapeHatch (lowerL "Please create a new markdown file in docs/ like README.md".toList) = true ∧
      detect_policy_violation "Please create a new markdown file in docs/ like README.md" = none :=
  ⟨by decide,
    claim7_escape_hatch_no_violation
      "Please create a new markdown file in docs/ like README.md" (by decide)⟩

/-! Helper lemmas about the override store. -/

theorem storeLookup_filter_ne (store : OverrideStore) (s : String) :
    storeLookup (store.filter (fun p => p.1 ≠ s)) s = none := by
  induction store with
  | nil => rfl
  | cons p rest ih =>
    by_cases h : p.1 = s
    · simpa [List.filter, h] using ih
    · simpa [storeLookup, List.filter, List.find?, h] using ih

/-- C10: A user message matching both the cancel-override pattern and a
set-override pattern parses to the cancel command, so the hook clears the
session's override and writes no new one. -/
theorem claim10_cancel_wins (maxTtl defaultTtl now : Nat) (store : OverrideStore)
    (s m : String)
    (hc : cancelSearch (lowerL m.toList) = true)
    (_ho : (overrideSearch (lowerL m.toList)).isSome = true) :
    parse_override_command maxTtl defaultTtl m = some .cancel ∧
    processOverrideCommand maxTtl defaultTtl store (some s) m now =
      cancel_complexity_override store (some s) ∧
    (s ≠ "" →
      storeLookup (processOverrideCommand maxTtl defaultTtl store (some s) m now) s =
        none) := by
  have hm : m ≠ "" := by
    intro h
    rw [h] at hc
    exact absurd hc (by decide)
  have hp : parse_override_command maxTtl defaultTtl m = some .cancel := by
    simp only [parse_override_command]
    rw [if_neg hm, if_pos hc]
  refine ⟨hp, ?_, ?_⟩
  · simp [processOverrideCommand, hp]
  · intro hs
    simp only [processOverrideCommand, hp, cancel_complexity_override]
    rw [if_neg hs]
    exact storeLookup_filter_ne store s

theorem claim10_witness :
    cancelSearch (lowerL "cancel the override and use opus for 10 minutes".toList) = true ∧
    (overrideSearch (lowerL "cancel the override and use opus for 10 minutes".toList)).isSome = true ∧
    (parse_override_command 60 5 "cancel the override and use opus for 10 minutes" =
        some .cancel ∧
      processOverrideCommand 60 5 [("sess1", ⟨"COMPLEX", 1000, 0, 5⟩)] (some "sess1")
          "cancel the override and use opus for 10 minutes" 0 =
        cancel_complexity_override [("sess1", ⟨"COMPLEX", 1000, 0, 5⟩)] (some "sess1") ∧
      ("sess1" ≠ "" →
        storeLookup
            (processOverrideCommand 60 5 [("sess1", ⟨"COMPLEX", 1000, 0, 5⟩)]
              (some "sess1") "cancel the override and use opus for 10 minutes" 0)
            "sess1" =
          none)) :=
  ⟨by decide, by decide,
    claim10_cancel_wins 60 5 0 [("sess1", ⟨"COMPLEX", 1000, 0, 5⟩)] "sess1"
      "cancel the override and use opus for 10 minutes" (by decide) (by decide)⟩

/-- C3: Whenever the post-trim token estimate exceeds the hard limit, the
guard attaches the synthetic refusal with finish reason `context_exhaustion`,
stamps `exhaustion_risk=fatal`, sets the skip-upstream flags, and the hook
returns at once, so the messages are not forwarded upstream (no later stage
runs and no classification happens). -/
theorem claim3_hard_limit_refusal (cfg : RouterCfg) (env : Env)
    (store : OverrideStore) (d : Request)
    (h : (guardTrim cfg (guardPass1 cfg d.messages []).msgs
        (cfg.overhead + (guardPass1 cfg d.messages []).tokens)).total >
      (cfg.hard : Int)) :
    (apply_context_exhaustion_protection cfg d).2 = true ∧
    (apply_context_exhaustion_protection cfg d).1.response =
      some (mkSynthResponse "context_exhaustion" contextExhaustionRefusalText
        "context_exhaustion") ∧
    (apply_context_exhaustion_protection cfg d).1.metadata.exhaustionRisk =
      some "fatal" ∧
    (apply_context_exhaustion_protection cfg d).1.skipLlmCall = true ∧
    (apply_context_exhaustion_protection cfg d).1.doNotRoute = true ∧
    (hookCore cfg env store d).refusedByGuard = true ∧
    (hookCore cfg env store d).data.skipLlmCall = true ∧
    (hookCore cfg env store d).classifyPath = .notRun ∧
    (hookCore cfg env store d).completedPipeline = false := by
  have hg :
      apply_context_exhaustion_protection cfg d =
        ({d with
            messages := (guardTrim cfg (guardPass1 cfg d.messages []).msgs
              (cfg.overhead + (guardPass1 cfg d.messages []).tokens)).msgs,
            response := some (mkSynthResponse "context_exhaustion"
              contextExhaustionRefusalText "context_exhaustion"),
            skipLlmCall := true,
            doNotRoute := true,
            metadata := {d.metadata with
              contextTokensEstimated := some (guardTrim cfg
                (guardPass1 cfg d.messages []).msgs
                (cfg.overhead + (guardPass1 cfg d.messages []).tokens)).total,
              contextTrimmed := some (guardTrim cfg
                (guardPass1 cfg d.messages []).msgs
                (cfg.overhead + (guardPass1 cfg d.messages []).tokens)).trimmed,
              contextTrimmedCount := some (guardTrim cfg
                (guardPass1 cfg d.messages []).msgs
                (cfg.overhead + (guardPass1 cfg d.messages []).tokens)).count,
              duplicateBlocksDetected := some (guardPass1 cfg d.messages []).dups,
              exhaustionRisk := some "fatal"}}, true) := by
    simp only [apply_context_exhaustion_protection]
    rw [if_pos h]
  refine ⟨?_, ?_, ?_, ?_, ?_, ?_, ?_, ?_, ?_⟩ <;>
    simp [hookCore, hg]

theorem claim3_witness :
    (guardTrim
          {soft := 10, hard := 20, blockLimit := 1000, dupMin := 1000,
            overhead := 0}
          (guardPass1
            {soft := 10, hard := 20, blockLimit := 1000, dupMin := 1000,
              overhead := 0}
            [⟨"system", String.mk (List.replicate 200 'a')⟩] []).msgs
          (0 +
            (guardPass1
              {soft := 10, hard := 20, blockLimit := 1000, dupMin := 1000,
                overhead := 0}
              [⟨"system", String.mk (List.replicate 200 'a')⟩] []).tokens)).total >
        ((20 : Nat) : Int) ∧
      ((apply_context_exhaustion_protection
            {soft := 10, hard := 20, blockLimit := 1000, dupMin := 1000,
              overhead := 0}
            {model := "X", callType := "completion",
              messages := [⟨"system", String.mk (List.replicate 200 'a')⟩]}).2 =
          true ∧
        (apply_context_exhaustion_protection
              {soft := 10, hard := 20, blockLimit := 1000, dupMin := 1000,
                overhead := 0}
              {model := "X", callType := "completion",
                messages := [⟨"system", String.mk (List.replicate 200 'a')⟩]}).1.metadata.exhaustionRisk =
          some "fatal") := by
  refine ⟨by decide, ?_, ?_⟩
  · exact (claim3_hard_limit_refusal
      {soft := 10, hard := 20, blockLimit := 1000, dupMin := 1000, overhead := 0}
      {} []
      {model := "X", callType := "completion",
        messages := [⟨"system", String.mk (List.replicate 200 'a')⟩]}
      (by decide)).1
  · exact (claim3_hard_limit_refusal
      {soft := 10, hard := 20, blockLimit := 1000, dupMin := 1000, overhead := 0}
      {} []
      {model := "X", callType := "completion",
        messages := [⟨"system", String.mk (List.replicate 200 'a')⟩]}
      (by decide)).2.2.1

/-! Helper lemmas about the trimming pass (claim C4). -/

theorem selectRemovals_prefix (soft : Int) :
    ∀ (cs : List (Nat × Nat)) (total : Int),
    ∃ k, (selectRemovals soft total cs).1 = (cs.map Prod.fst).take k := by
  intro cs
  induction cs with
  | nil => exact fun _ => ⟨0, rfl⟩
  | cons p rest ih =>
    intro total
    obtain ⟨i, c⟩ := p
    simp only [selectRemovals]
    by_cases h : total ≤ soft
    · rw [if_pos h]
      exact ⟨0, rfl⟩
    · rw [if_neg h]
      obtain ⟨k, hk⟩ := ih (total - (c : Int))
      exact ⟨k + 1, by simp [hk]⟩

theorem selectRemovals_stop (soft : Int) :
    ∀ (cs : List (Nat × Nat)) (total : Int),
    (selectRemovals soft total cs).2 ≤ soft ∨
      (selectRemovals soft total cs).1.length = cs.length := by
  intro cs
  induction cs with
  | nil => exact fun _ => Or.inr rfl
  | cons p rest ih =>
    intro total
    obtain ⟨i, c⟩ := p
    simp only [selectRemovals]
    by_cases h : total ≤ soft
    · rw [if_pos h]
      exact Or.inl h
    · rw [if_neg h]
      rcases ih (total - (c : Int)) with hl | hr
      · exact Or.inl hl
      · exact Or.inr (by simp [hr])

theorem buildCandidatesAux_ge (lastUser : Option Nat) :
    ∀ (ms : List Msg) (i j : Nat),
    j ∈ (buildCandidatesAux lastUser i ms).map Prod.fst → i ≤ j := by
  intro ms
  induction ms with
  | nil => intro i j hj; simp [buildCandidatesAux] at hj
  | cons m rest ih =>
    intro i j hj
    by_cases hs : m.role = "system"
    · simp only [buildCandidatesAux, if_pos hs] at hj
      exact Nat.le_of_succ_le (ih (i + 1) j hj)
    · by_cases hl : lastUser = some i
      · simp only [buildCandidatesAux, if_neg hs, if_pos hl] at hj
        exact Nat.le_of_succ_le (ih (i + 1) j hj)
      · simp only [buildCandidatesAux, if_neg hs, if_neg hl, List.map_cons,
          List.mem_cons] at hj
        rcases hj with hj | hj
        · exact hj ▸ Nat.le_refl i
        · exact Nat.le_of_succ_le (ih (i + 1) j hj)

theorem buildCandidatesAux_head (lastUser : Option Nat) (m : Msg)
    (rest : List Msg) (i j : Nat)
    (hj : j ∈ (buildCandidatesAux lastUser i (m :: rest)).map Prod.fst) :
    (j = i ∧ ¬ m.role = "system" ∧ ¬ lastUser = some i) ∨
      j ∈ (buildCandidatesAux lastUser (i + 1) rest).map Prod.fst := by
  by_cases hs : m.role = "system"
  · right
    simpa only [buildCandidatesAux, if_pos hs] using hj
  · by_cases hl : lastUser = some i
    · right
      simpa only [buildCandidatesAux, if_neg hs, if_pos hl] using hj
    · simp only [buildCandidatesAux, if_neg hs, if_neg hl, List.map_cons,
        List.mem_cons] at hj
      rcases hj with hj | hj
      · exact Or.inl ⟨hj, hs, hl⟩
      · exact Or.inr hj

theorem buildCandidatesAux_ne_lastUser (j : Nat) :
    ∀ (ms : List Msg) (i : Nat),
    j ∈ (buildCandidatesAux (some j) i ms).map Prod.fst → False := by
  intro ms
  induction ms with
  | nil => intro i hj; simp [buildCandidatesAux] at hj
  | cons m rest ih =>
    intro i hj
    rcases buildCandidatesAux_head (some j) m rest i j hj with ⟨hji, _, hne⟩ | hj2
    · exact hne (by rw [hji])
    · exact ih (i + 1) hj2

theorem lastUserIdxAux_bound :
    ∀ (ms : List Msg) (i : Nat) (acc : Option Nat) (j : Nat),
    lastUserIdxAux i ms acc = some j →
      acc = some j ∨ (i ≤ j ∧ j - i < ms.length) := by
  intro ms
  induction ms with
  | nil => intro i acc j h; exact Or.inl h
  | cons m rest ih =>
    intro i acc j h
    simp only [lastUserIdxAux] at h
    rcases ih (i + 1) _ j h with hacc | ⟨hle, hlt⟩
    · by_cases hu : m.role = "user"
      · rw [if_pos hu] at hacc
        right
        refine ⟨?_, ?_⟩ <;> simp_all
      · rw [if_neg hu] at hacc
        exact Or.inl hacc
    · right
      constructor
      · omega
      · simp only [List.length_cons]
        omega

theorem lastUserIdx_lt (msgs : List Msg) (j : Nat)
    (h : lastUserIdx msgs = some j) : j < msgs.length := by
  rcases lastUserIdxAux_bound msgs 0 none j h with hacc | ⟨_, hlt⟩
  · exact absurd hacc (by simp)
  · simpa using hlt

theorem removeIdx_keep :
    ∀ (ms : List Msg) (i j : Nat) (rem : List Nat) (x : Msg),
    i ≤ j → ms[j - i]? = some x → j ∉ rem → x ∈ removeIdx rem i ms := by
  intro ms
  induction ms with
  | nil => intro i j rem x _ hx _; simp at hx
  | cons m rest ih =>
    intro i j rem x hij hx hrem
    by_cases he : j = i
    · subst he
      simp only [Nat.sub_self, List.getElem?_cons_zero, Option.some.injEq] at hx
      have hc : rem.contains j = false := by
        simpa using hrem
      simp only [removeIdx, hc, Bool.false_eq_true, if_neg, ite_false]
      exact hx ▸ List.mem_cons_self _ _
    · have hij1 : i + 1 ≤ j := by omega
      have hk : j - i = (j - (i + 1)) + 1 := by omega
      rw [hk, List.getElem?_cons_succ] at hx
      have hmem := ih (i + 1) j rem x hij1 hx hrem
      simp only [removeIdx]
      split
      · exact hmem
      · exact List.mem_cons_of_mem _ hmem

theorem removeIdx_filter_system (lastUser : Option Nat) :
    ∀ (ms : List Msg) (i : Nat) (rem : List Nat),
    (∀ j, j ∈ rem → i ≤ j →
      j ∈ (buildCandidatesAux lastUser i ms).map Prod.fst) →
    (removeIdx rem i ms).filter (fun m => m.role = "system") =
      ms.filter (fun m => m.role = "system") := by
  intro ms
  induction ms with
  | nil => intro i rem _; rfl
  | cons m rest ih =>
    intro i rem H
    have H' : ∀ j, j ∈ rem → i + 1 ≤ j →
        j ∈ (buildCandidatesAux lastUser (i + 1) rest).map Prod.fst := by
      intro j hj hij1
      rcases buildCandidatesAux_head lastUser m rest i j
          (H j hj (by omega)) with ⟨hji, _, _⟩ | h2
      · omega
      · exact h2
    by_cases hc : rem.contains i
    · have hi : i ∈ rem := by simpa using hc
      have hs : ¬ m.role = "system" := by
        rcases buildCandidatesAux_head lastUser m rest i i
            (H i hi (Nat.le_refl i)) with ⟨_, hs, _⟩ | h2
        · exact hs
        · exact absurd (buildCandidatesAux_ge lastUser rest (i + 1) i h2)
            (by omega)
      simp only [removeIdx, hc, ite_true, List.filter_cons]
      rw [ih (i + 1) rem H']
      simp [hs]
    · simp only [removeIdx, hc, Bool.false_eq_true, ite_false, List.filter_cons]
      rw [ih (i + 1) rem H']

/-- C4: When the estimated total exceeds the soft limit, the trimming pass
removes a prefix of the candidate list (every message except `role=system`
and the last user message, in encounter order), stopping when the total
reaches the soft limit or the candidates are exhausted; every system message
and the last user message are still present afterwards. -/
theorem claim4_trim_invariants (cfg : RouterCfg) (msgs : List Msg) (total : Nat)
    (h : cfg.soft < total) :
    (∃ k, (selectRemovals (cfg.soft : Int) (total : Int) (buildCandidates msgs)).1 =
      ((buildCandidates msgs).map Prod.fst).take k) ∧
    ((guardTrim cfg msgs total).total ≤ (cfg.soft : Int) ∨
      (selectRemovals (cfg.soft : Int) (total : Int) (buildCandidates msgs)).1.length =
        (buildCandidates msgs).length) ∧
    ((guardTrim cfg msgs total).msgs.filter (fun m => m.role = "system") =
      msgs.filter (fun m => m.role = "system")) ∧
    (∀ j, lastUserIdx msgs = some j → ∀ (_ : j < msgs.length),
      msgs[j] ∈ (guardTrim cfg msgs total).msgs) := by
  have hpre := selectRemovals_prefix (cfg.soft : Int) (buildCandidates msgs)
    (total : Int)
  have hstop := selectRemovals_stop (cfg.soft : Int) (buildCandidates msgs)
    (total : Int)
  by_cases hsel :
      (selectRemovals (cfg.soft : Int) (total : Int) (buildCandidates msgs)).1 = []
  · have ht : guardTrim cfg msgs total =
        ⟨msgs, (selectRemovals (cfg.soft : Int) (total : Int)
          (buildCandidates msgs)).2, 0, false⟩ := by
      simp only [guardTrim]
      rw [if_pos h, if_pos hsel]
    refine ⟨hpre, ?_, ?_, ?_⟩
    · rw [ht]
      exact hstop
    · rw [ht]
    · intro j _ hj
      rw [ht]
      exact List.getElem_mem hj
  · have ht : guardTrim cfg msgs total =
        ⟨removeIdx (selectRemovals (cfg.soft : Int) (total : Int)
            (buildCandidates msgs)).1 0 msgs,
          (selectRemovals (cfg.soft : Int) (total : Int)
            (buildCandidates msgs)).2,
          (selectRemovals (cfg.soft : Int) (total : Int)
            (buildCandidates msgs)).1.length, true⟩ := by
      simp only [guardTrim]
      rw [if_pos h, if_neg hsel]
    have hsub : ∀ j,
        j ∈ (selectRemovals (cfg.soft : Int) (total : Int)
          (buildCandidates msgs)).1 →
        j ∈ (buildCandidates msgs).map Prod.fst := by
      obtain ⟨k, hk⟩ := hpre
      intro j hj
      rw [hk] at hj
      exact List.take_subset k _ hj
    refine ⟨hpre, ?_, ?_, ?_⟩
    · rw [ht]
      exact hstop
    · rw [ht]
      exact removeIdx_filter_system (lastUserIdx msgs) msgs 0 _
        (fun j hj _ => hsub j hj)
    · intro j hju hj
      rw [ht]
      have hnot : j ∉ (selectRemovals (cfg.soft : Int) (total : Int)
          (buildCandidates msgs)).1 := by
        intro hmem
        exact buildCandidatesAux_ne_lastUser j msgs 0 (by
          have := hsub j hmem
          simp [buildCandidates, hju] at this ⊢
          exact this)
      exact removeIdx_keep msgs 0 j _ _ (Nat.zero_le j)
        (by simp only [Nat.sub_zero]
            exact List.getElem?_eq_getElem hj) hnot

theorem claim4_witness :
    c4cfg.soft < 10 ∧
    ((∃ k, (selectRemovals (c4cfg.soft : Int) ((10 : Nat) : Int)
        (buildCandidates c4msgs)).1 =
      ((buildCandidates c4msgs).map Prod.fst).take k) ∧
    ((guardTrim c4cfg c4msgs 10).total ≤ (c4cfg.soft : Int) ∨
      (selectRemovals (c4cfg.soft : Int) ((10 : Nat) : Int)
          (buildCandidates c4msgs)).1.length =
        (buildCandidates c4msgs).length) ∧
    ((guardTrim c4cfg c4msgs 10).msgs.filter (fun m => m.role = "system") =
      c4msgs.filter (fun m => m.role = "system")) ∧
    (∀ j, lastUserIdx c4msgs = some j → ∀ (_ : j < c4msgs.length),
      c4msgs[j] ∈ (guardTrim c4cfg c4msgs 10).msgs)) :=
  ⟨by decide, claim4_trim_invariants c4cfg c4msgs 10 (by decide)⟩

/-! Field-preservation lemmas for the pipeline stages. -/

theorem guard_fields (cfg : RouterCfg) (S : Request) :
    (apply_context_exhaustion_protection cfg S).1.model = S.model ∧
    (apply_context_exhaustion_protection cfg S).1.system = S.system ∧
    (apply_context_exhaustion_protection cfg S).1.callType = S.callType ∧
    (apply_context_exhaustion_protection cfg S).1.headers = S.headers ∧
    (apply_context_exhaustion_protection cfg S).1.litellmMetadata =
      S.litellmMetadata ∧
    (apply_context_exhaustion_protection cfg S).1.metadata.requestType =
      S.metadata.requestType ∧
    (apply_context_exhaustion_protection cfg S).1.metadata.policyViolation =
      S.metadata.policyViolation ∧
    (apply_context_exhaustion_protection cfg S).1.metadata.repo =
      S.metadata.repo ∧
    (apply_context_exhaustion_protection cfg S).1.metadata.repoRoot =
      S.metadata.repoRoot ∧
    (apply_context_exhaustion_protection cfg S).1.metadata.userId =
      S.metadata.userId := by
  simp only [apply_context_exhaustion_protection]
  split <;> simp

theorem guard_not_refused (cfg : RouterCfg) (S : Request)
    (h : (apply_context_exhaustion_protection cfg S).2 = false) :
    (apply_context_exhaustion_protection cfg S).1.response = S.response ∧
    (apply_context_exhaustion_protection cfg S).1.skipLlmCall = S.skipLlmCall ∧
    (apply_context_exhaustion_protection cfg S).1.doNotRoute = S.doNotRoute ∧
    (apply_context_exhaustion_protection cfg S).1.metadata.contextTokensEstimated.isSome =
      true ∧
    ((apply_context_exhaustion_protection cfg S).1.metadata.exhaustionRisk =
        some "low" ∨
      (apply_context_exhaustion_protection cfg S).1.metadata.exhaustionRisk =
        some "medium" ∨
      (apply_context_exhaustion_protection cfg S).1.metadata.exhaustionRisk =
        some "high") := by
  revert h
  simp only [apply_context_exhaustion_protection]
  split
  · intro h
    simp at h
  · intro _
    refine ⟨rfl, rfl, rfl, by simp, ?_⟩
    split
    · simp
    · split
      · simp
      · split <;> simp

theorem ledgerStage_fields (cfg : RouterCfg) (d : Request) :
    (ledgerStage cfg d).1.model = d.model ∧
    (ledgerStage cfg d).1.messages = d.messages ∧
    (ledgerStage cfg d).1.system = d.system ∧
    (ledgerStage cfg d).1.callType = d.callType ∧
    (ledgerStage cfg d).1.headers = d.headers ∧
    (ledgerStage cfg d).1.litellmMetadata = d.litellmMetadata ∧
    (ledgerStage cfg d).1.metadata.requestType = d.metadata.requestType ∧
    (ledgerStage cfg d).1.metadata.policyViolation = d.metadata.policyViolation ∧
    (ledgerStage cfg d).1.metadata.repo = d.metadata.repo ∧
    (ledgerStage cfg d).1.metadata.repoRoot = d.metadata.repoRoot ∧
    (ledgerStage cfg d).1.metadata.userId = d.metadata.userId ∧
    (ledgerStage cfg d).1.metadata.contextTokensEstimated =
      d.metadata.contextTokensEstimated ∧
    (ledgerStage cfg d).1.metadata.exhaustionRisk = d.metadata.exhaustionRisk ∧
    (ledgerStage cfg d).1.response = d.response ∧
    (ledgerStage cfg d).1.skipLlmCall = d.skipLlmCall ∧
    (ledgerStage cfg d).1.doNotRoute = d.doNotRoute ∧
    (ledgerStage cfg d).2 = (build_ledger_reminder cfg d.metadata.repo d.metadata).1 := by
  simp only [ledgerStage]
  split <;> simp

theorem resolver_fields (d : Request) :
    (get_repo_root_from_request d).1.model = d.model ∧
    (get_repo_root_from_request d).1.messages = d.messages ∧
    (get_repo_root_from_request d).1.system = d.system ∧
    (get_repo_root_from_request d).1.callType = d.callType ∧
    (get_repo_root_from_request d).1.litellmMetadata = d.litellmMetadata ∧
    (get_repo_root_from_request d).1.metadata.requestType =
      d.metadata.requestType ∧
    (get_repo_root_from_request d).1.metadata.policyViolation =
      d.metadata.policyViolation ∧
    (get_repo_root_from_request d).1.metadata.repoRoot = d.metadata.repoRoot ∧
    (get_repo_root_from_request d).1.metadata.userId = d.metadata.userId ∧
    (get_repo_root_from_request d).1.metadata.contextTokensEstimated =
      d.metadata.contextTokensEstimated ∧
    (get_repo_root_from_request d).1.metadata.exhaustionRisk =
      d.metadata.exhaustionRisk ∧
    (get_repo_root_from_request d).1.response = d.response ∧
    (get_repo_root_from_request d).1.skipLlmCall = d.skipLlmCall ∧
    (get_repo_root_from_request d).1.doNotRoute = d.doNotRoute := by
  simp only [get_repo_root_from_request]
  repeat' split
  all_goals simp

theorem metaNonempty_of_repoRoot (m : Meta) (h : optTruthy m.repoRoot = true) :
    metaNonempty m = true := by
  rcases hr : m.repoRoot with _ | s
  · rw [hr] at h
    simp [optTruthy] at h
  · simp only [metaNonempty, emptyMeta]
    simp only [decide_eq_true_eq]
    intro he
    rw [he] at hr
    simp at hr

theorem resolverRootChoice_of_truthy (rn rootVal : Option String)
    (h : optTruthy rootVal = true) : resolverRootChoice rn rootVal = rootVal := by
  by_cases hc : optTruthy rn = true <;> simp [resolverRootChoice, hc, h]

theorem resolverRootChoice_of_falsy (rn rootVal : Option String)
    (h : optTruthy rootVal = false) : resolverRootChoice rn rootVal = none := by
  simp [resolverRootChoice, h]

theorem resolver_root_of_truthy (d : Request)
    (hne : metaNonempty d.metadata = true)
    (h : optTruthy d.metadata.repoRoot = true) :
    (get_repo_root_from_request d).2 = d.metadata.repoRoot := by
  simp only [get_repo_root_from_request]
  rw [if_pos hne]
  exact resolverRootChoice_of_truthy _ _ h

theorem resolver_root_of_falsy (d : Request)
    (hne : metaNonempty d.metadata = true)
    (h : optTruthy d.metadata.repoRoot = false) :
    (get_repo_root_from_request d).2 = none := by
  simp only [get_repo_root_from_request]
  rw [if_pos hne]
  exact resolverRootChoice_of_falsy _ _ h

/-! Glue lemmas: unfolding the hook to the stage that decides each claim. -/

theorem hookCore_classification_passThrough (cfg : RouterCfg) (env : Env)
    (store : OverrideStore) (S : Request)
    (hg : (apply_context_exhaustion_protection cfg S).2 = false)
    (hcls : S.metadata.requestType = some "classification") :
    hookCore cfg env store S =
      passThrough
        (get_repo_root_from_request
          (ledgerStage cfg (apply_context_exhaustion_protection cfg S).1).1).1
        store := by
  obtain ⟨g_model, g_sys, g_ct, g_h, g_lm, g_rt, g_pv, g_repo, g_root, g_uid⟩ :=
    guard_fields cfg S
  obtain ⟨l_model, l_msgs, l_sys, l_ct, l_h, l_lm, l_rt, l_pv, l_repo, l_root,
    l_uid, l_tok, l_risk, l_resp, l_skip, l_dnr, l_rem⟩ :=
    ledgerStage_fields cfg (apply_context_exhaustion_protection cfg S).1
  obtain ⟨r_model, r_msgs, r_sys, r_ct, r_lm, r_rt, r_pv, r_root, r_uid, r_tok,
    r_risk, r_resp, r_skip, r_dnr⟩ :=
    resolver_fields (ledgerStage cfg (apply_context_exhaustion_protection cfg S).1).1
  simp only [hookCore]
  rw [if_neg (by simp [hg])]
  rw [if_neg (by rw [l_rt, g_rt, hcls]; decide)]
  by_cases hful :
      allowedCallType
        (get_repo_root_from_request
          (ledgerStage cfg (apply_context_exhaustion_protection cfg S).1).1).1.callType = true
  · rw [if_neg (by simp [hful])]
    rw [if_pos (Or.inl (by rw [r_rt, l_rt, g_rt]; exact hcls))]
  · rw [if_pos (by simp [hful])]

theorem hookCore_reaches_mainStage (cfg : RouterCfg) (env : Env)
    (store : OverrideStore) (S : Request)
    (hg : (apply_context_exhaustion_protection cfg S).2 = false)
    (hb : S.metadata.requestType ≠ some "repo_bootstrap")
    (hct : allowedCallType S.callType = true)
    (hc1 : S.metadata.requestType ≠ some "classification")
    (hc2 : S.litellmMetadata.requestType ≠ some "classification")
    (hpv : S.metadata.policyViolation ≠ some "true") :
    hookCore cfg env store S =
      mainStage cfg env store
        (get_repo_root_from_request
          (ledgerStage cfg (apply_context_exhaustion_protection cfg S).1).1).1
        (get_repo_root_from_request
          (ledgerStage cfg (apply_context_exhaustion_protection cfg S).1).1).2
        (get_repo_root_from_request
          (ledgerStage cfg (apply_context_exhaustion_protection cfg S).1).1).1.model
        (extract_user_message
          (get_repo_root_from_request
            (ledgerStage cfg (apply_context_exhaustion_protection cfg S).1).1).1.messages)
        (ledgerStage cfg (apply_context_exhaustion_protection cfg S).1).2 := by
  obtain ⟨g_model, g_sys, g_ct, g_h, g_lm, g_rt, g_pv, g_repo, g_root, g_uid⟩ :=
    guard_fields cfg S
  obtain ⟨l_model, l_msgs, l_sys, l_ct, l_h, l_lm, l_rt, l_pv, l_repo, l_root,
    l_uid, l_tok, l_risk, l_resp, l_skip, l_dnr, l_rem⟩ :=
    ledgerStage_fields cfg (apply_context_exhaustion_protection cfg S).1
  obtain ⟨r_model, r_msgs, r_sys, r_ct, r_lm, r_rt, r_pv, r_root, r_uid, r_tok,
    r_risk, r_resp, r_skip, r_dnr⟩ :=
    resolver_fields (ledgerStage cfg (apply_context_exhaustion_protection cfg S).1).1
  simp only [hookCore]
  rw [if_neg (by simp [hg])]
  rw [if_neg (by rw [l_rt, g_rt]; exact hb)]
  rw [if_neg (by rw [r_ct, l_ct, g_ct]; simp [hct])]
  rw [if_neg (by rw [r_rt, l_rt, g_rt, r_lm, l_lm, g_lm]; simp [hc1, hc2])]
  rw [if_neg (by rw [r_pv, l_pv, g_pv]; exact hpv)]

/-- C1 (amended): For a request with metadata `request_type=classification`
that the guard does not fatally refuse, the hook short-circuits before the
policy, enforcement and routing stages: no model rewrite, no system
injection, no synthetic response, no contract load, no classification — but
the context-exhaustion guard (stage 5) has already run and stamped its
metadata (the original claim's "stages 5-9 do not execute" fails for
stage 5). -/
theorem claim1_classification_short_circuit (cfg : RouterCfg) (env : Env)
    (store : OverrideStore) (S : Request)
    (hg : (apply_context_exhaustion_protection cfg S).2 = false)
    (hcls : S.metadata.requestType = some "classification") :
    (hookCore cfg env store S).data.model = S.model ∧
    (hookCore cfg env store S).data.system = S.system ∧
    (hookCore cfg env store S).data.response = S.response ∧
    (hookCore cfg env store S).data.skipLlmCall = S.skipLlmCall ∧
    (hookCore cfg env store S).data.doNotRoute = S.doNotRoute ∧
    (hookCore cfg env store S).classifyPath = .notRun ∧
    (hookCore cfg env store S).classification = none ∧
    (hookCore cfg env store S).contractLoaded = none ∧
    (hookCore cfg env store S).enforcementInjected = false ∧
    (hookCore cfg env store S).completedPipeline = false ∧
    (hookCore cfg env store S).data.metadata.contextTokensEstimated.isSome = true ∧
    ((hookCore cfg env store S).data.metadata.exhaustionRisk = some "low" ∨
      (hookCore cfg env store S).data.metadata.exhaustionRisk = some "medium" ∨
      (hookCore cfg env store S).data.metadata.exhaustionRisk = some "high") := by
  obtain ⟨g_model, g_sys, g_ct, g_h, g_lm, g_rt, g_pv, g_repo, g_root, g_uid⟩ :=
    guard_fields cfg S
  obtain ⟨n_resp, n_skip, n_dnr, n_tok, n_risk⟩ := guard_not_refused cfg S hg
  obtain ⟨l_model, l_msgs, l_sys, l_ct, l_h, l_lm, l_rt, l_pv, l_repo, l_root,
    l_uid, l_tok, l_risk, l_resp, l_skip, l_dnr, l_rem⟩ :=
    ledgerStage_fields cfg (apply_context_exhaustion_protection cfg S).1
  obtain ⟨r_model, r_msgs, r_sys, r_ct, r_lm, r_rt, r_pv, r_root, r_uid, r_tok,
    r_risk, r_resp, r_skip, r_dnr⟩ :=
    resolver_fields (ledgerStage cfg (apply_context_exhaustion_protection cfg S).1).1
  rw [hookCore_classification_passThrough cfg env store S hg hcls]
  simp only [passThrough, true_and, and_true]
  refine ⟨?_, ?_, ?_, ?_, ?_, ?_, ?_⟩
  · rw [r_model, l_model, g_model]
  · rw [r_sys, l_sys, g_sys]
  · rw [r_resp, l_resp, n_resp]
  · rw [r_skip, l_skip, n_skip]
  · rw [r_dnr, l_dnr, n_dnr]
  · rw [r_tok, l_tok]
    exact n_tok
  · rw [r_risk, l_risk]
    exact n_risk

theorem claim1_witness :
    ((apply_context_exhaustion_protection {} c1req).2 = false ∧
      c1req.metadata.requestType = some "classification") ∧
    ((hookCore {} {} [] c1req).data.model = c1req.model ∧
      (hookCore {} {} [] c1req).completedPipeline = false) :=
  ⟨⟨by decide, by decide⟩,
    (claim1_classification_short_circuit {} {} [] c1req (by decide) (by decide)).1,
    (claim1_classification_short_circuit {} {} [] c1req (by decide)
      (by decide)).2.2.2.2.2.2.2.2.2.1⟩

/-- C1 counterexample to the claim as stated: a classification-tagged request
is not returned unchanged — the context-exhaustion guard (stage 5) runs first
and stamps its metadata on the request. -/
theorem claim1_counterexample :
    c1req.metadata.requestType = some "classification" ∧
    c1req.metadata.exhaustionRisk = none ∧
    (hookCore {} {} [] c1req).data.metadata.exhaustionRisk = some "low" ∧
    (hookCore {} {} [] c1req).data ≠ c1req := by
  refine ⟨by decide, by decide, by decide, by decide⟩

/-! Substring lemmas used to read the refusal content. -/

theorem strToList_append (a b : String) :
    (a ++ b).toList = a.toList ++ b.toList := rfl

theorem startsL_self_append (p b : List Char) : startsL p (p ++ b) = true := by
  induction p with
  | nil => rfl
  | cons c cs ih => simp [startsL, ih]

theorem subL_self_append (pat b : List Char) : subL pat (pat ++ b) = true := by
  cases pat with
  | nil => cases b <;> simp [subL, startsL]
  | cons c cs => simp [subL, List.cons_append, startsL, startsL_self_append]

theorem subL_cons (pat : List Char) (c : Char) (cs : List Char)
    (h : subL pat cs = true) : subL pat (c :: cs) = true := by
  simp [subL, h]

theorem subL_append_left (pat a s : List Char) (h : subL pat s = true) :
    subL pat (a ++ s) = true := by
  induction a with
  | nil => exact h
  | cons c cs ih =>
    rw [List.cons_append]
    exact subL_cons _ _ _ ih

theorem policyRefusalText_contains_hash (hash reason : String) :
    subS hash (policyRefusalText hash reason) = true := by
  simp only [policyRefusalText, subS, strToList_append, List.append_assoc]
  exact subL_append_left _ _ _ (subL_self_append _ _)

theorem policyRefusalText_contains_reason (hash reason : String) :
    subS reason (policyRefusalText hash reason) = true := by
  simp only [policyRefusalText, subS, strToList_append, List.append_assoc]
  exact subL_append_left _ _ _ (subL_append_left _ _ _
    (subL_append_left _ _ _ (subL_self_append _ _)))

/-- C2: For a scoped request (truthy `repo` and `repo_root`) reaching the
policy stage whose last user message triggers the violation detector, the
hook attaches a synthetic assistant response naming the violation reason and
the contract hash with finish reason `policy_violation`, sets the
skip-upstream flags, and leaves the `model` field at its entry value. -/
theorem claim2_policy_violation_refusal (cfg : RouterCfg) (env : Env)
    (store : OverrideStore) (S : Request) (m reason : String)
    (hg : (apply_context_exhaustion_protection cfg S).2 = false)
    (hb : S.metadata.requestType ≠ some "repo_bootstrap")
    (hct : allowedCallType S.callType = true)
    (hc1 : S.metadata.requestType ≠ some "classification")
    (hc2 : S.litellmMetadata.requestType ≠ some "classification")
    (hpv : S.metadata.policyViolation ≠ some "true")
    (_hrepo : optTruthy S.metadata.repo = true)
    (hroot : optTruthy S.metadata.repoRoot = true)
    (hum : extract_user_message
      ((apply_context_exhaustion_protection cfg S).1).messages = some m)
    (hmne : m ≠ "")
    (hdet : detect_policy_violation m = some reason) :
    (hookCore cfg env store S).data.response =
      some (mkSynthResponse "policy_violation"
        (policyRefusalText (get_policy_contract env S.metadata.repoRoot).hash
          reason) "policy_violation") ∧
    subS (get_policy_contract env S.metadata.repoRoot).hash
      (policyRefusalText (get_policy_contract env S.metadata.repoRoot).hash
        reason) = true ∧
    subS reason
      (policyRefusalText (get_policy_contract env S.metadata.repoRoot).hash
        reason) = true ∧
    (hookCore cfg env store S).data.skipLlmCall = true ∧
    (hookCore cfg env store S).data.doNotRoute = true ∧
    (hookCore cfg env store S).data.model = S.model ∧
    (hookCore cfg env store S).data.metadata.policyViolation = some "true" ∧
    (hookCore cfg env store S).data.metadata.contractHash =
      some (get_policy_contract env S.metadata.repoRoot).hash ∧
    (hookCore cfg env store S).completedPipeline = false ∧
    (hookCore cfg env store S).classification = none := by
  obtain ⟨g_model, g_sys, g_ct, g_h, g_lm, g_rt, g_pv, g_repo, g_root, g_uid⟩ :=
    guard_fields cfg S
  obtain ⟨l_model, l_msgs, l_sys, l_ct, l_h, l_lm, l_rt, l_pv, l_repo, l_root,
    l_uid, l_tok, l_risk, l_resp, l_skip, l_dnr, l_rem⟩ :=
    ledgerStage_fields cfg (apply_context_exhaustion_protection cfg S).1
  obtain ⟨r_model, r_msgs, r_sys, r_ct, r_lm, r_rt, r_pv, r_root, r_uid, r_tok,
    r_risk, r_resp, r_skip, r_dnr⟩ :=
    resolver_fields (ledgerStage cfg (apply_context_exhaustion_protection cfg S).1).1
  have hroot2 :
      (ledgerStage cfg (apply_context_exhaustion_protection cfg S).1).1.metadata.repoRoot =
        S.metadata.repoRoot := by
    rw [l_root, g_root]
  have hne :
      metaNonempty
        (ledgerStage cfg (apply_context_exhaustion_protection cfg S).1).1.metadata =
        true :=
    metaNonempty_of_repoRoot _ (by rw [hroot2]; exact hroot)
  have hr2 :
      (get_repo_root_from_request
        (ledgerStage cfg (apply_context_exhaustion_protection cfg S).1).1).2 =
        S.metadata.repoRoot := by
    rw [resolver_root_of_truthy _ hne (by rw [hroot2]; exact hroot), hroot2]
  obtain ⟨rt, hrt⟩ : ∃ rt, S.metadata.repoRoot = some rt := by
    rcases h : S.metadata.repoRoot with _ | rt
    · rw [h] at hroot
      simp [optTruthy] at hroot
    · exact ⟨rt, rfl⟩
  have hum3 :
      extract_user_message
        (get_repo_root_from_request
          (ledgerStage cfg (apply_context_exhaustion_protection cfg S).1).1).1.messages =
        some m := by
    rw [r_msgs, l_msgs]
    exact hum
  have hmodel :
      (get_repo_root_from_request
        (ledgerStage cfg (apply_context_exhaustion_protection cfg S).1).1).1.model =
        S.model := by
    rw [r_model, l_model, g_model]
  rw [hookCore_reaches_mainStage cfg env store S hg hb hct hc1 hc2 hpv]
  rw [hr2, hrt, hum3, hmodel]
  simp only [mainStage, hdet]
  rw [if_pos hmne]
  simp only [hdet]
  exact ⟨trivial, policyRefusalText_contains_hash _ _,
    policyRefusalText_contains_reason _ _, trivial, trivial, trivial, trivial,
    trivial, trivial, trivial⟩

theorem claim2_witness :
    (detect_policy_violation
        "please create a new markdown file under docs/design/" =
      some "Request explicitly asks to create new markdown" ∧
      optTruthy c2req.metadata.repo = true ∧
      optTruthy c2req.metadata.repoRoot = true) ∧
    ((hookCore {} c2env [] c2req).data.response =
      some (mkSynthResponse "policy_violation"
        (policyRefusalText (get_policy_contract c2env c2req.metadata.repoRoot).hash
          "Request explicitly asks to create new markdown") "policy_violation") ∧
      (hookCore {} c2env [] c2req).data.skipLlmCall = true ∧
      (hookCore {} c2env [] c2req).data.model = c2req.model) :=
  ⟨⟨by decide, by decide, by decide⟩,
    (claim2_policy_violation_refusal {} c2env [] c2req
      "please create a new markdown file under docs/design/"
      "Request explicitly asks to create new markdown"
      (by decide) (by decide) (by decide) (by decide) (by decide) (by decide)
      (by decide) (by decide) (by decide) (by decide) (by decide)).1,
    (claim2_policy_violation_refusal {} c2env [] c2req
      "please create a new markdown file under docs/design/"
      "Request explicitly asks to create new markdown"
      (by decide) (by decide) (by decide) (by decide) (by decide) (by decide)
      (by decide) (by decide) (by decide) (by decide) (by decide)).2.2.2.1,
    (claim2_policy_violation_refusal {} c2env [] c2req
      "please create a new markdown file under docs/design/"
      "Request explicitly asks to create new markdown"
      (by decide) (by decide) (by decide) (by decide) (by decide) (by decide)
      (by decide) (by decide) (by decide) (by decide) (by decide)).2.2.2.2.2.1⟩

/-- C5 counterexample to the claim as stated: a request whose `repo` resolves
to nothing (unscoped by the specification's definition of scoped) but whose
`repo_root` is present still gets the contract loaded and the enforcement
system message injected. -/
theorem claim5_counterexample :
    c5req.metadata.repo = none ∧
    c5req.headers.xRepo = none ∧
    (hookCore {} c2env [] c5req).data.metadata.repo = none ∧
    (hookCore {} c2env [] c5req).contractLoaded =
      some (get_policy_contract c2env (some "/tmp/acme")) ∧
    (hookCore {} c2env [] c5req).enforcementInjected = true ∧
    (hookCore {} c2env [] c5req).data.system ≠ none := by
  refine ⟨by decide, by decide, by decide, by decide, by decide, by decide⟩

/-- C5 (amended): Policy-contract loading, violation detection and
enforcement-injection are gated on the resolved `repo_root` alone: with no
resolved root nothing runs and the system field is untouched; with a resolved
root the contract is loaded (whether or not `repo` resolved), and the
enforcement system message is injected whenever no violation fired and the
contract hash is non-empty. -/
theorem claim5_enforcement_gated_on_repo_root (cfg : RouterCfg) (env : Env)
    (store : OverrideStore) (S : Request)
    (hg : (apply_context_exhaustion_protection cfg S).2 = false)
    (hb : S.metadata.requestType ≠ some "repo_bootstrap")
    (hct : allowedCallType S.callType = true)
    (hc1 : S.metadata.requestType ≠ some "classification")
    (hc2 : S.litellmMetadata.requestType ≠ some "classification")
    (hpv : S.metadata.policyViolation ≠ some "true") :
    ((get_repo_root_from_request
        (ledgerStage cfg (apply_context_exhaustion_protection cfg S).1).1).2 =
        none →
      (hookCore cfg env store S).contractLoaded = none ∧
      (hookCore cfg env store S).enforcementInjected = false ∧
      (hookCore cfg env store S).data.system = S.system) ∧
    (∀ rt,
      (get_repo_root_from_request
        (ledgerStage cfg (apply_context_exhaustion_protection cfg S).1).1).2 =
        some rt →
      (hookCore cfg env store S).contractLoaded =
        some (get_policy_contract env (some rt))) ∧
    (∀ rt,
      (get_repo_root_from_request
        (ledgerStage cfg (apply_context_exhaustion_protection cfg S).1).1).2 =
        some rt →
      (∀ m, extract_user_message
          ((apply_context_exhaustion_protection cfg S).1).messages = some m →
        detect_policy_violation m = none) →
      (get_policy_contract env (some rt)).hash ≠ "" →
      (hookCore cfg env store S).enforcementInjected = true) := by
  obtain ⟨g_model, g_sys, g_ct, g_h, g_lm, g_rt, g_pv, g_repo, g_root, g_uid⟩ :=
    guard_fields cfg S
  obtain ⟨l_model, l_msgs, l_sys, l_ct, l_h, l_lm, l_rt, l_pv, l_repo, l_root,
    l_uid, l_tok, l_risk, l_resp, l_skip, l_dnr, l_rem⟩ :=
    ledgerStage_fields cfg (apply_context_exhaustion_protection cfg S).1
  obtain ⟨r_model, r_msgs, r_sys, r_ct, r_lm, r_rt, r_pv, r_root, r_uid, r_tok,
    r_risk, r_resp, r_skip, r_dnr⟩ :=
    resolver_fields (ledgerStage cfg (apply_context_exhaustion_protection cfg S).1).1
  rw [hookCore_reaches_mainStage cfg env store S hg hb hct hc1 hc2 hpv]
  refine ⟨?_, ?_, ?_⟩
  · intro hnone
    rw [hnone]
    simp only [mainStage, classifyFinish]
    refine ⟨trivial, trivial, ?_⟩
    rw [r_sys, l_sys, g_sys]
  · intro rt hrt
    rw [hrt]
    simp only [mainStage]
    split
    · rfl
    · split <;> rfl
  · intro rt hrt hnv hhash
    rw [hrt]
    have humv :
        (match
          extract_user_message
            (get_repo_root_from_request
              (ledgerStage cfg (apply_context_exhaustion_protection cfg S).1).1).1.messages with
        | some m => if m ≠ "" then detect_policy_violation m else none
        | none => none) = none := by
      rcases hum : extract_user_message
          (get_repo_root_from_request
            (ledgerStage cfg (apply_context_exhaustion_protection cfg S).1).1).1.messages with
        _ | m
      · rfl
      · show (if m ≠ "" then detect_policy_violation m else none) = none
        by_cases hm : m = ""
        · simp [hm]
        · rw [if_pos hm]
          apply hnv
          rw [r_msgs, l_msgs] at hum
          exact hum
    simp only [mainStage, humv]
    rw [if_pos hhash]
    rfl

theorem claim5_witness :
    ((apply_context_exhaustion_protection {} c5req).2 = false ∧
      (get_repo_root_from_request
        (ledgerStage {} (apply_context_exhaustion_protection {} c5req).1).1).2 =
        some "/tmp/acme") ∧
    (hookCore {} c2env [] c5req).contractLoaded =
      some (get_policy_contract c2env (some "/tmp/acme")) ∧
    (hookCore {} c2env [] c5req).enforcementInjected = true :=
  ⟨⟨by decide, by decide⟩,
    (claim5_enforcement_gated_on_repo_root {} c2env [] c5req (by decide)
      (by decide) (by decide) (by decide) (by decide) (by decide)).2.1
      "/tmp/acme" (by decide),
    (claim5_enforcement_gated_on_repo_root {} c2env [] c5req (by decide)
      (by decide) (by decide) (by decide) (by decide) (by decide)).2.2
      "/tmp/acme" (by decide)
      (fun m hm => by
        rw [show extract_user_message
            ((apply_context_exhaustion_protection ({} : RouterCfg) c5req).1).messages =
            some "hello there" from by decide] at hm
        injection hm with h
        subst h
        decide)
      (by decide)⟩

/-! Lemmas about the override-and-classification tail (claims C6 and C8). -/

theorem extract_session_id_congr (m1 m2 : Meta) (h : m1.userId = m2.userId) :
    extract_session_id m1 = extract_session_id m2 := by
  unfold extract_session_id
  rw [h]

theorem classifyFinish_override (cfg : RouterCfg) (env : Env)
    (store : OverrideStore) (d : Request) (um : Option String)
    (contractOpt : Option Contract) (enf : Bool) (c : String)
    (sid : Option String)
    (hsid : extract_session_id d.metadata = sid)
    (hstore : get_complexity_override (overrideStageStore cfg env store sid um)
      sid env.now = some c) :
    (classifyFinish cfg env store d um contractOpt enf).classification = some c ∧
    (classifyFinish cfg env store d um contractOpt enf).classifyPath =
      .overridden ∧
    (classifyFinish cfg env store d um contractOpt enf).data.model =
      MODEL_MAP c := by
  refine ⟨?_, ?_, ?_⟩ <;> simp [classifyFinish, hsid, hstore]

/-- C6: For a request reaching the classification stage whose session has a
live (unexpired) override after the command-dispatch step, the computed
classification equals the override's stored complexity, the model is
rewritten to that tier's name via `MODEL_MAP`, and the decision path is the
override arm — no classifier call and no cache lookup. -/
theorem claim6_active_override (cfg : RouterCfg) (env : Env)
    (store : OverrideStore) (S : Request) (um0 : Option String) (c : String)
    (hg : (apply_context_exhaustion_protection cfg S).2 = false)
    (hb : S.metadata.requestType ≠ some "repo_bootstrap")
    (hct : allowedCallType S.callType = true)
    (hc1 : S.metadata.requestType ≠ some "classification")
    (hc2 : S.litellmMetadata.requestType ≠ some "classification")
    (hpv : S.metadata.policyViolation ≠ some "true")
    (hnv : ∀ m, extract_user_message
      ((apply_context_exhaustion_protection cfg S).1).messages = some m →
      detect_policy_violation m = none)
    (hum : extract_user_message
      ((apply_context_exhaustion_protection cfg S).1).messages = um0)
    (hactive : get_complexity_override
      (overrideStageStore cfg env store (extract_session_id S.metadata) um0)
      (extract_session_id S.metadata) env.now = some c) :
    (hookCore cfg env store S).classification = some c ∧
    (hookCore cfg env store S).classifyPath = .overridden ∧
    (hookCore cfg env store S).data.model = MODEL_MAP c := by
  obtain ⟨g_model, g_sys, g_ct, g_h, g_lm, g_rt, g_pv, g_repo, g_root, g_uid⟩ :=
    guard_fields cfg S
  obtain ⟨l_model, l_msgs, l_sys, l_ct, l_h, l_lm, l_rt, l_pv, l_repo, l_root,
    l_uid, l_tok, l_risk, l_resp, l_skip, l_dnr, l_rem⟩ :=
    ledgerStage_fields cfg (apply_context_exhaustion_protection cfg S).1
  obtain ⟨r_model, r_msgs, r_sys, r_ct, r_lm, r_rt, r_pv, r_root, r_uid, r_tok,
    r_risk, r_resp, r_skip, r_dnr⟩ :=
    resolver_fields (ledgerStage cfg (apply_context_exhaustion_protection cfg S).1).1
  have hum3 :
      extract_user_message
        (get_repo_root_from_request
          (ledgerStage cfg (apply_context_exhaustion_protection cfg S).1).1).1.messages =
        um0 := by
    rw [r_msgs, l_msgs]
    exact hum
  have hsid3 :
      extract_session_id
        (get_repo_root_from_request
          (ledgerStage cfg (apply_context_exhaustion_protection cfg S).1).1).1.metadata =
        extract_session_id S.metadata :=
    extract_session_id_congr _ _ (by rw [r_uid, l_uid, g_uid])
  rw [hookCore_reaches_mainStage cfg env store S hg hb hct hc1 hc2 hpv]
  rw [hum3]
  rcases hroot :
      (get_repo_root_from_request
        (ledgerStage cfg (apply_context_exhaustion_protection cfg S).1).1).2 with
    _ | rt
  · simp only [mainStage]
    exact classifyFinish_override cfg env store _ um0 none false c
      (extract_session_id S.metadata) hsid3 hactive
  · simp only [mainStage]
    have humv :
        (match um0 with
        | some m => if m ≠ "" then detect_policy_violation m else none
        | none => none) = none := by
      rcases hu : um0 with _ | m
      · rfl
      · show (if m ≠ "" then detect_policy_violation m else none) = none
        by_cases hm : m = ""
        · simp [hm]
        · rw [if_pos hm]
          apply hnv
          rw [hu] at hum
          exact hum
    simp only [humv]
    split
    · exact classifyFinish_override cfg env store _ um0 _ true c
        (extract_session_id S.metadata) hsid3 hactive
    · exact classifyFinish_override cfg env store _ um0 _ false c
        (extract_session_id S.metadata) hsid3 hactive

theorem claim6_witness :
    (get_complexity_override
        (overrideStageStore {} {} c6store (extract_session_id c6req.metadata)
          (some "Tell me about dragons"))
        (extract_session_id c6req.metadata) ({} : Env).now = some "COMPLEX") ∧
    ((hookCore {} {} c6store c6req).classification = some "COMPLEX" ∧
      (hookCore {} {} c6store c6req).classifyPath = .overridden ∧
      (hookCore {} {} c6store c6req).data.model = MODEL_MAP "COMPLEX") :=
  ⟨by decide,
    claim6_active_override {} {} c6store c6req (some "Tell me about dragons")
      "COMPLEX" (by decide) (by decide) (by decide) (by decide) (by decide)
      (by decide)
      (fun m hm => by
        rw [show extract_user_message
            ((apply_context_exhaustion_protection ({} : RouterCfg) c6req).1).messages =
            some "Tell me about dragons" from by decide] at hm
        injection hm with h
        subst h
        decide)
      (by decide) (by decide)⟩

theorem classify_with_haiku_path (env : Env) (p : String) :
    (classify_with_haiku env p).2 = .cacheHit ∨
      (classify_with_haiku env p).2 = .classifierCall := by
  cases hc : env.classificationCacheLookup (p.take 500) with
  | none =>
    cases hr : env.classifierResult (p.take 2000) <;>
      simp [classify_with_haiku, hc, hr]
  | some c => simp [classify_with_haiku, hc]

theorem classifyFinish_threshold (cfg : RouterCfg) (env : Env)
    (store : OverrideStore) (d : Request) (m : String)
    (contractOpt : Option Contract) (enf : Bool) (sid : Option String)
    (hsid : extract_session_id d.metadata = sid)
    (hstore : get_complexity_override
      (overrideStageStore cfg env store sid (some m)) sid env.now = none)
    (hm : m ≠ "") :
    ((pyStrip m.toList).length < 20 →
      (classifyFinish cfg env store d (some m) contractOpt enf).classification =
        some "SIMPLE" ∧
      (classifyFinish cfg env store d (some m) contractOpt enf).classifyPath =
        .fastPath) ∧
    (¬ (pyStrip m.toList).length < 20 →
      (classifyFinish cfg env store d (some m) contractOpt enf).classifyPath =
        .cacheHit ∨
      (classifyFinish cfg env store d (some m) contractOpt enf).classifyPath =
        .classifierCall) := by
  constructor
  · intro hlt
    have hlt2 : (pyStrip m.data).length < 20 := hlt
    constructor <;> simp [classifyFinish, hsid, hstore, hm, hlt2]
  · intro hge
    have hge2 : ¬ (pyStrip m.data).length < 20 := hge
    rcases classify_with_haiku_path env m with h | h <;>
      simp [classifyFinish, hsid, hstore, hm, hge2, h]

/-- C8 (amended): At the classification stage with no active override and a
truthy last user message, the fast path fires exactly when the message has
fewer than 20 characters after stripping leading and trailing whitespace
(`len(user_message.strip())`): below the threshold the classification is
SIMPLE with no cache lookup and no classifier call; at or above it, the
cache-or-classifier path runs. (The original claim's count of non-whitespace
characters is refuted by the counterexample.) -/
theorem claim8_fast_path_threshold (cfg : RouterCfg) (env : Env)
    (store : OverrideStore) (S : Request) (m : String)
    (hg : (apply_context_exhaustion_protection cfg S).2 = false)
    (hb : S.metadata.requestType ≠ some "repo_bootstrap")
    (hct : allowedCallType S.callType = true)
    (hc1 : S.metadata.requestType ≠ some "classification")
    (hc2 : S.litellmMetadata.requestType ≠ some "classification")
    (hpv : S.metadata.policyViolation ≠ some "true")
    (hnv : ∀ m2, extract_user_message
      ((apply_context_exhaustion_protection cfg S).1).messages = some m2 →
      detect_policy_violation m2 = none)
    (hum : extract_user_message
      ((apply_context_exhaustion_protection cfg S).1).messages = some m)
    (hm : m ≠ "")
    (hstore : get_complexity_override
      (overrideStageStore cfg env store (extract_session_id S.metadata) (some m))
      (extract_session_id S.metadata) env.now = none) :
    ((pyStrip m.toList).length < 20 →
      (hookCore cfg env store S).classification = some "SIMPLE" ∧
      (hookCore cfg env store S).classifyPath = .fastPath) ∧
    (¬ (pyStrip m.toList).length < 20 →
      (hookCore cfg env store S).classifyPath = .cacheHit ∨
      (hookCore cfg env store S).classifyPath = .classifierCall) := by
  obtain ⟨g_model, g_sys, g_ct, g_h, g_lm, g_rt, g_pv, g_repo, g_root, g_uid⟩ :=
    guard_fields cfg S
  obtain ⟨l_model, l_msgs, l_sys, l_ct, l_h, l_lm, l_rt, l_pv, l_repo, l_root,
    l_uid, l_tok, l_risk, l_resp, l_skip, l_dnr, l_rem⟩ :=
    ledgerStage_fields cfg (apply_context_exhaustion_protection cfg S).1
  obtain ⟨r_model, r_msgs, r_sys, r_ct, r_lm, r_rt, r_pv, r_root, r_uid, r_tok,
    r_risk, r_resp, r_skip, r_dnr⟩ :=
    resolver_fields (ledgerStage cfg (apply_context_exhaustion_protection cfg S).1).1
  have hum3 :
      extract_user_message
        (get_repo_root_from_request
          (ledgerStage cfg (apply_context_exhaustion_protection cfg S).1).1).1.messages =
        some m := by
    rw [r_msgs, l_msgs]
    exact hum
  have hsid3 :
      extract_session_id
        (get_repo_root_from_request
          (ledgerStage cfg (apply_context_exhaustion_protection cfg S).1).1).1.metadata =
        extract_session_id S.metadata :=
    extract_session_id_congr _ _ (by rw [r_uid, l_uid, g_uid])
  rw [hookCore_reaches_mainStage cfg env store S hg hb hct hc1 hc2 hpv]
  rw [hum3]
  rcases hroot :
      (get_repo_root_from_request
        (ledgerStage cfg (apply_context_exhaustion_protection cfg S).1).1).2 with
    _ | rt
  · simp only [mainStage]
    exact classifyFinish_threshold cfg env store _ m none false
      (extract_session_id S.metadata) hsid3 hstore hm
  · simp only [mainStage]
    have humv : (if m ≠ "" then detect_policy_violation m else none) = none := by
      rw [if_pos hm]
      exact hnv m hum
    simp only [humv]
    split
    · exact classifyFinish_threshold cfg env store _ m _ true
        (extract_session_id S.metadata) hsid3 hstore hm
    · exact classifyFinish_threshold cfg env store _ m _ false
        (extract_session_id S.metadata) hsid3 hstore hm

theorem claim8_witness :
    (extract_user_message
        ((apply_context_exhaustion_protection {} c8short).1).messages =
      some "hi there" ∧
      (pyStrip "hi there".toList).length < 20) ∧
    ((hookCore {} {} [] c8short).classification = some "SIMPLE" ∧
      (hookCore {} {} [] c8short).classifyPath = .fastPath) :=
  ⟨⟨by decide, by decide⟩,
    (claim8_fast_path_threshold {} {} [] c8short "hi there" (by decide)
      (by decide) (by decide) (by decide) (by decide) (by decide)
      (fun m2 hm2 => by
        rw [show extract_user_message
            ((apply_context_exhaustion_protection ({} : RouterCfg) c8short).1).messages =
            some "hi there" from by decide] at hm2
        injection hm2 with h
        subst h
        decide)
      (by decide) (by decide) (by decide)).1 (by decide)⟩

/-- C8 counterexample to the claim as stated: a last user message with 2
non-whitespace characters (below the claimed threshold of 20) does not take
the fast path — its stripped length is 20, so the classifier is called and
the classification follows the classifier (COMPLEX here), not SIMPLE. -/
theorem claim8_counterexample :
    nonWsCount "a                  a" < 20 ∧
    (hookCore {} c8env [] c8req).classifyPath = .classifierCall ∧
    (hookCore {} c8env [] c8req).classification = some "COMPLEX" := by
  refine ⟨by decide, by decide, by decide⟩

/-- C9 (amended): The ledger reminder is built for every truthy repo inside
the configured enforcement set (or when the set is `*`), regardless of guard
intervention; the `context_guard` alert — and with it the `ledger_alert`
metadata stamp — is produced exactly when additionally at least one of
`context_trimmed`, `context_trimmed_count`, `duplicate_blocks_detected`,
`large_blocks_suppressed` is set or `exhaustion_risk` is medium or high.
(The original claim's "reminder only on intervention" is refuted by the
counterexample.) -/
theorem claim9_ledger_reminder_and_alert (cfg : RouterCfg) (r : String)
    (md : Meta) :
    ((build_ledger_reminder cfg (some r) md).1.isSome = true ↔
      (r ≠ "" ∧ (cfg.ledgerApplyAll = true ∨
        cfg.ledgerRepos.contains (pyLowerS r) = true))) ∧
    ((build_ledger_reminder cfg (some r) md).2 = some "context_guard" ↔
      (r ≠ "" ∧ (cfg.ledgerApplyAll = true ∨
        cfg.ledgerRepos.contains (pyLowerS r) = true) ∧
        ledgerGuardIntervened md = true)) ∧
    build_ledger_reminder cfg none md = (none, none) := by
  by_cases hr : r = ""
  · simp [build_ledger_reminder, hr]
  · by_cases happ : cfg.ledgerApplyAll = true
    · by_cases hint : ledgerGuardIntervened md = true <;>
        simp [build_ledger_reminder, hr, happ, hint]
    · by_cases hmem : cfg.ledgerRepos.contains (pyLowerS r) = true
      · have hmem2 : pyLowerS r ∈ cfg.ledgerRepos := by simpa using hmem
        by_cases hint : ledgerGuardIntervened md = true <;>
          simp [build_ledger_reminder, hr, happ, hmem, hmem2, hint]
      · have hmem2 : pyLowerS r ∉ cfg.ledgerRepos := by simpa using hmem
        simp [build_ledger_reminder, hr, happ, hmem, hmem2]

/-- C9 counterexample to the claim as stated: with no guard intervention at
all (fresh metadata, no trims, no duplicates, risk low) the reminder is still
built for a repo in the enforcement set, and the hook still prepends it to
the enforcement system message while `ledger_alert` stays unset. -/
theorem claim9_counterexample :
    ledgerGuardIntervened ({} : Meta) = false ∧
    (build_ledger_reminder {} (some "acme") {}).2 = none ∧
    (build_ledger_reminder {} (some "acme") {}).1.isSome = true ∧
    (hookCore {} c2env [] c9req).data.metadata.ledgerAlert = none ∧
    startsL "LEDGER REMINDER (acme):".toList
      ((hookCore {} c2env [] c9req).data.system.getD "").toList = true := by
  refine ⟨by decide, by decide, by decide, by decide, by decide⟩
